import Mathlib

/-!
Shallow embedding of src/marketplace_server.py (NEXUS Marketplace API v3.0),
a Flask application storing sellers, listings, orders and carts as JSON
collections held in module-level Python variables.

Modelling conventions, applied uniformly:

* Python dicts representing a single record (a listing, a seller, an order,
  a cart item) become Lean structures.  A key that the source only ever reads
  through dict.get with a default is materialized as a total field holding
  that default when the key would be absent; keys the source never reads are
  dropped (for a listing: image_small, type_line, mana_cost, oracle_text,
  set_name, colors, scryfall_price; for a cart: the created timestamp).
* Python dicts keyed by an id (sellers, carts, the Scryfall cache, the
  per-seller grouping built in checkout) become association lists in
  insertion order, looked up by first match, matching CPython's
  insertion-ordered dicts.
* Floats (prices, timestamps) are modelled as rationals, integer counts as
  integers.  Python round(x, 2) becomes round2 below; both the embedded code
  and every claim statement use this one function.
* Sources of nondeterminism are parameters: uuid-generated ids become
  explicit id arguments (a function from the position in the processed list
  for loops), datetime.now() becomes a now argument, and the body of a
  Scryfall HTTP response becomes an Option ScryData argument (none models a
  non-200 or failed request).  Request JSON fields that may be absent are
  Option-valued; a JSON null is conflated with an absent key, matching every
  read in the source (all of which treat None and absent alike).
* Incoming listings posted to /api/seller/sync keep Option-valued fields,
  because dict.update only overwrites keys present in the incoming dict.
-/

namespace Nexus

/-- Python's substring test, needle in hay, on strings. -/
def strContains (hay needle : String) : Bool :=
  decide (needle.toList <:+: hay.toList)

/-- Python's str.lower, modelled character-wise (Char.toLower, covering the
ASCII range the marketplace data uses) in a form the kernel can evaluate. -/
def str_lower (s : String) : String := ⟨s.data.map Char.toLower⟩

/-- Python's round(x, 2), modelled on rationals.  Both the embedded code and
the claims use this single definition, so no claim depends on the tie-breaking
convention of Python's float rounding. -/
def round2 (q : ℚ) : ℚ := ((round (q * 100) : ℤ) : ℚ) / 100

/-- First-match lookup in an association list, modelling d[k] / k in d on a
Python dict (whose keys are unique; on our lists uniqueness holds wherever
the source guarantees it). -/
def alookup {α : Type} : List (String × α) → String → Option α
  | [], _ => none
  | (k2, v) :: rest, k => if k2 = k then some v else alookup rest k

/-- Modelling d[k] = v on a Python dict: replace the first binding of k if
present, otherwise append a new binding at the end (CPython keeps insertion
order and updates in place). -/
def aupsert {α : Type} : List (String × α) → String → α → List (String × α)
  | [], k, v => [(k, v)]
  | (k2, w) :: rest, k, v =>
      if k2 = k then (k2, v) :: rest else (k2, w) :: aupsert rest k v

/-- Replace the first element satisfying p by its image under f, modelling an
in-place mutation of the object returned by Python's next(...) over a list. -/
def update_first {α : Type} (p : α → Bool) (f : α → α) : List α → List α
  | [] => []
  | x :: xs => if p x then f x :: xs else x :: update_first p f xs

/-- A listing dict.  Defaults materialized for absent keys: strings default to
"" (the source reads them via get(k, '') or compares them to non-empty
constants), price defaults to 0 (get('price', 0)), quantity defaults to 1
(get('quantity', 1)). -/
structure Listing where
  id : String
  seller_id : String
  card_name : String
  set_code : String
  condition : String
  price : ℚ
  quantity : Int
  status : String
  rarity : String
  image_url : String
  synced_at : String
  deriving DecidableEq, Repr

/-- A seller dict, as created by /api/seller/register. -/
structure Seller where
  shop_name : String
  email : String
  location : String
  api_key : String
  created : String
  status : String
  deriving DecidableEq, Repr

/-- One entry of a cart's item list. -/
structure CartItem where
  listing_id : String
  quantity : Int
  deriving DecidableEq, Repr

/-- One entry of an order's item list: the snapshot of listing fields taken
at checkout. -/
structure OrderItem where
  listing_id : String
  card_name : String
  set_code : String
  condition : String
  price : ℚ
  quantity : Int
  deriving DecidableEq, Repr

/-- An order dict as created by /api/checkout.  tracking, added later by
/api/seller/order/update, is not modelled (no claim touches it). -/
structure Order where
  id : String
  seller_id : String
  buyer_name : String
  buyer_email : String
  shipping_address : Option String
  items : List OrderItem
  total : ℚ
  status : String
  created : String
  updated : String
  deriving DecidableEq, Repr

/-- The module-level mutable collections of the server (the Scryfall cache is
modelled separately, see fetch_from_scryfall). -/
structure MarketState where
  sellers : List (String × Seller)
  listings : List Listing
  orders : List Order
  carts : List (String × List CartItem)
  deriving DecidableEq, Repr

/-! ## Authentication -/

/-- The seller-search loop of require_api_key: first seller whose api_key
equals the presented key, together with its dict key (the seller id). -/
def find_seller_by_key : List (String × Seller) → String → Option (String × Seller)
  | [], _ => none
  | (sid, s) :: rest, key =>
      if s.api_key = key then some (sid, s) else find_seller_by_key rest key

/-- The decision made by the require_api_key decorator.  The api key argument
is the value of the X-API-Key header or the api_key query parameter; none or
an empty string is Python-falsy and rejected as missing. -/
def require_api_key (sellers : List (String × Seller)) (apiKey : Option String) :
    Except (Nat × String) (String × Seller) :=
  let k := apiKey.getD ""
  if k = "" then Except.error (401, "API key required")
  else
    match find_seller_by_key sellers k with
    | none => Except.error (401, "Invalid API key")
    | some p => Except.ok p

/-- The decorator applied to a handler: on a bad key the wrapped handler is
not called and the 401 error is returned with the state untouched. -/
def with_api_key {St Resp : Type} (sellers : List (String × Seller))
    (apiKey : Option String) (handler : String → Seller → St → St × Resp)
    (st : St) : St × Except (Nat × String) Resp :=
  match require_api_key sellers apiKey with
  | Except.error e => (st, Except.error e)
  | Except.ok (sid, s) =>
      let r := handler sid s st
      (r.1, Except.ok r.2)

/-! ## Cart session -/

/-- get_or_create_cart_id: keep the cookie's cart id when it is truthy and
present in carts, otherwise mint newId (the uuid4 parameter) and store an
empty cart under it. -/
def get_or_create_cart_id (carts : List (String × List CartItem))
    (cookie : Option String) (newId : String) :
    String × List (String × List CartItem) :=
  let cid := cookie.getD ""
  if cid ≠ "" ∧ (alookup carts cid).isSome then (cid, carts)
  else (newId, aupsert carts newId [])

/-! ## Scryfall integration -/

/-- The fields of a Scryfall response that the server stores and that some
claim can observe (the remaining stored fields never influence any modelled
behaviour and are dropped). -/
structure ScryData where
  image_url : String
  rarity : String
  deriving DecidableEq, Repr

/-- One entry of the scryfall_cache dict; timestamp materializes
get('timestamp', 0). -/
structure CacheEntry where
  data : Option ScryData
  timestamp : ℚ
  deriving DecidableEq, Repr

/-- Result of fetch_from_scryfall: the returned data, whether the external
API was contacted (the requests.get line reached), and the cache afterwards. -/
structure FetchResult where
  result : Option ScryData
  contacted_api : Bool
  cache : List (String × CacheEntry)
  deriving DecidableEq, Repr

/-- The cache key: name|set lowercased, with a falsy set code replaced by
any, exactly as the f-string with set_code or 'any' builds it. -/
def cache_key (card_name : String) (set_code : Option String) : String :=
  let sc := set_code.getD ""
  str_lower (card_name ++ "|" ++ (if sc = "" then "any" else sc))

/-- The external-call half of fetch_from_scryfall: api_response models the
body of a 200 response (none for any failure, which the source swallows).
The periodic save_json of the cache is disk persistence and is not modelled. -/
def fetch_external (cache : List (String × CacheEntry)) (now : ℚ) (key : String)
    (api_response : Option ScryData) : FetchResult :=
  match api_response with
  | some d => ⟨some d, true, aupsert cache key ⟨some d, now⟩⟩
  | none => ⟨none, true, cache⟩

/-- fetch_from_scryfall: serve from cache when the key is present with a
timestamp newer than 7 days before now, otherwise contact the external API. -/
def fetch_from_scryfall (cache : List (String × CacheEntry)) (now : ℚ)
    (card_name : String) (set_code : Option String)
    (api_response : Option ScryData) : FetchResult :=
  let key := cache_key card_name set_code
  match alookup cache key with
  | some cached =>
      if now - 7 * 24 * 3600 < cached.timestamp then ⟨cached.data, false, cache⟩
      else fetch_external cache now key api_response
  | none => fetch_external cache now key api_response

/-- enrich_listing on a stored listing.  scry abstracts the net result of
fetch_from_scryfall for a (card_name, set_code) pair: some data when either a
fresh cache entry or a successful external call produces data, none otherwise.
Only listings with a falsy image_url are touched; of the fields the call
overwrites, only image_url and rarity are modelled (the others are dropped
from Listing, see the header). -/
def enrich_listing (scry : String → String → Option ScryData) (l : Listing) :
    Listing :=
  if l.image_url = "" then
    match scry l.card_name l.set_code with
    | some d => { l with image_url := d.image_url, rarity := d.rarity }
    | none => l
  else l

/-! ## GET /api/listings -/

/-- The query parameters of GET /api/listings.  name, set and rarity are read
with default '' (so none and some "" are indistinguishable, as in the
source); seller distinguishes absent from empty only through Python
truthiness, also matching the source; limit and offset model the non-negative
int arguments (negative Python slice arguments are out of scope: no claim
involves them). -/
structure ListingQuery where
  name : Option String
  set : Option String
  seller : Option String
  min_price : Option ℚ
  max_price : Option ℚ
  rarity : Option String
  limit : Nat
  offset : Nat

/-- Response of GET /api/listings.  The seller_name the loop injects into
each listing dict is a key Listing does not model (no claim reads it). -/
structure ListingsResponse where
  listings : List Listing
  total : Nat
  offset : Nat
  limit : Nat

/-- get_listings: the filter chain, the enrichment loop over the filtered
list, then pagination.  Each stage mirrors one guarded filter of the source,
including the truthiness guards that skip a filter on an empty parameter. -/
def get_listings (listings : List Listing) (q : ListingQuery)
    (scry : String → String → Option ScryData) : ListingsResponse :=
  let active := listings.filter (fun l => l.status == "Active")
  let name := str_lower (q.name.getD "")
  let set_code := str_lower (q.set.getD "")
  let seller := q.seller.getD ""
  let rarity := str_lower (q.rarity.getD "")
  let f1 := if name = "" then active
            else active.filter (fun l => strContains (str_lower l.card_name) name)
  let f2 := if set_code = "" then f1
            else f1.filter (fun l => strContains (str_lower l.set_code) set_code)
  let f3 := if seller = "" then f2
            else f2.filter (fun l => l.seller_id == seller)
  let f4 := if q.min_price = none then f3
            else f3.filter (fun l => decide (q.min_price.getD 0 ≤ l.price))
  let f5 := if q.max_price = none then f4
            else f4.filter (fun l => decide (l.price ≤ q.max_price.getD 0))
  let f6 := if rarity = "" then f5
            else f5.filter (fun l => strContains (str_lower l.rarity) rarity)
  let enriched := f6.map (enrich_listing scry)
  ⟨(enriched.drop q.offset).take q.limit, f6.length, q.offset, q.limit⟩

/-! ## GET /api/cart -/

/-- First listing whose id equals lid, as next(l for l in listings if
l.get('id') == lid) returns it. -/
def find_listing : List Listing → String → Option Listing
  | [], _ => none
  | l :: rest, lid => if l.id = lid then some l else find_listing rest lid

/-- One enriched cart line of the GET /api/cart response (seller_name
omitted, see Listing). -/
structure CartLine where
  listing_id : String
  card_name : String
  set_code : String
  condition : String
  price : ℚ
  quantity : Int
  subtotal : ℚ
  image_url : String
  deriving DecidableEq, Repr

/-- Response of GET /api/cart. -/
structure CartResponse where
  items : List CartLine
  item_count : Nat
  total : ℚ
  deriving DecidableEq, Repr

/-- One iteration of the enrichment loop of get_cart: skip an item whose
listing is gone or not Active, otherwise emit a line with subtotal price*qty
and accumulate the running total. -/
def cart_line_step (listings : List Listing) (acc : List CartLine × ℚ)
    (item : CartItem) : List CartLine × ℚ :=
  match find_listing listings item.listing_id with
  | some l =>
      if l.status = "Active" then
        (acc.1 ++ [⟨l.id, l.card_name, l.set_code, l.condition, l.price,
                    item.quantity, l.price * (item.quantity : ℚ),
                    l.image_url⟩],
         acc.2 + l.price * (item.quantity : ℚ))
      else acc
  | none => acc

/-- The enrichment loop of get_cart over the cart's items. -/
def cart_lines (listings : List Listing) (items : List CartItem) :
    List CartLine × ℚ :=
  items.foldl (cart_line_step listings) ([], 0)

/-- get_cart: resolve or create the cart id, build the enriched lines, round
the total. -/
def get_cart (st : MarketState) (cookie : Option String) (newId : String) :
    MarketState × CartResponse :=
  let r := get_or_create_cart_id st.carts cookie newId
  let items := (alookup r.2 r.1).getD []
  let lt := cart_lines st.listings items
  ({ st with carts := r.2 }, ⟨lt.1, lt.1.length, round2 lt.2⟩)

/-! ## POST /api/cart/add and /api/cart/remove -/

/-- Body of POST /api/cart/add; quantity defaults to 1. -/
structure AddBody where
  listing_id : Option String
  quantity : Option Int
  deriving DecidableEq, Repr

/-- Body of POST /api/cart/remove. -/
structure RemoveBody where
  listing_id : Option String
  deriving DecidableEq, Repr

/-- Status code plus success flag; the JSON bodies of these endpoints carry
no further claim-relevant data. -/
structure SimpleResponse where
  code : Nat
  ok : Bool
  deriving DecidableEq, Repr

/-- First listing with the given id and status Active, as the next(...) caller
in add_to_cart builds it. -/
def find_active_listing : List Listing → String → Option Listing
  | [], _ => none
  | l :: rest, lid =>
      if l.id = lid ∧ l.status = "Active" then some l
      else find_active_listing rest lid

/-- add_to_cart: resolve the cart, validate listing_id, require an Active
listing, cap the (merged) requested quantity by the listing's quantity, then
merge into an existing cart item or append a new one. -/
def add_to_cart (st : MarketState) (cookie : Option String) (newId : String)
    (body : AddBody) : MarketState × SimpleResponse :=
  let r := get_or_create_cart_id st.carts cookie newId
  let st2 := { st with carts := r.2 }
  let lid := body.listing_id.getD ""
  let quantity := body.quantity.getD 1
  if lid = "" then (st2, ⟨400, false⟩)
  else
    match find_active_listing st.listings lid with
    | none => (st2, ⟨404, false⟩)
    | some listing =>
        let available := listing.quantity
        let cart := (alookup r.2 r.1).getD []
        match cart.find? (fun i => i.listing_id == lid) with
        | some existing =>
            let new_qty := existing.quantity + quantity
            if available < new_qty then (st2, ⟨400, false⟩)
            else
              let cart2 := update_first (fun i => i.listing_id == lid)
                (fun i => { i with quantity := new_qty }) cart
              ({ st2 with carts := aupsert r.2 r.1 cart2 }, ⟨200, true⟩)
        | none =>
            if available < quantity then (st2, ⟨400, false⟩)
            else ({ st2 with carts := aupsert r.2 r.1 (cart ++ [⟨lid, quantity⟩]) },
                  ⟨200, true⟩)

/-- remove_from_cart: drop every cart item whose listing_id equals the body's
listing_id (a None body value matches no item, as string != None in Python). -/
def remove_from_cart (st : MarketState) (cookie : Option String) (newId : String)
    (body : RemoveBody) : MarketState × SimpleResponse :=
  let r := get_or_create_cart_id st.carts cookie newId
  match alookup r.2 r.1 with
  | some items =>
      let items2 := items.filter (fun i => ¬ (body.listing_id == some i.listing_id))
      ({ st with carts := aupsert r.2 r.1 items2 }, ⟨200, true⟩)
  | none => ({ st with carts := r.2 }, ⟨200, true⟩)

/-! ## POST /api/checkout -/

/-- Body of POST /api/checkout. -/
structure CheckoutBody where
  email : Option String
  name : Option String
  shipping_address : Option String
  deriving DecidableEq, Repr

/-- Response of POST /api/checkout: the status code and the created order
ids (empty on failure). -/
structure CheckoutResponse where
  code : Nat
  order_ids : List String
  deriving DecidableEq, Repr

/-- The snapshot dict appended to a seller's group for one cart item. -/
def snapshot_item (l : Listing) (q : Int) : OrderItem :=
  ⟨l.id, l.card_name, l.set_code, l.condition, l.price, q⟩

/-- One iteration of the group-items-by-seller loop of checkout: an item
whose listing_id matches no listing is skipped; otherwise its snapshot is
appended to its seller's group in the insertion-ordered seller_orders dict. -/
def group_step (listings : List Listing)
    (groups : List (String × List OrderItem)) (item : CartItem) :
    List (String × List OrderItem) :=
  match find_listing listings item.listing_id with
  | some l =>
      (match alookup groups l.seller_id with
       | some existing =>
           aupsert groups l.seller_id (existing ++ [snapshot_item l item.quantity])
       | none => groups ++ [(l.seller_id, [snapshot_item l item.quantity])])
  | none => groups

/-- The group-items-by-seller loop of checkout over the cart's items. -/
def group_items (listings : List Listing) (items : List CartItem) :
    List (String × List OrderItem) :=
  items.foldl (group_step listings) []

/-- The per-listing mutation of the mark-as-sold loop: decrement quantity and
flip status to Sold when the result is <= 0. -/
def apply_purchase (l : Listing) (q : Int) : Listing :=
  let q2 := l.quantity - q
  { l with quantity := q2, status := if q2 ≤ 0 then "Sold" else l.status }

/-- The body of the innermost mark-as-sold loop: a listing is decremented
when its id equals the purchased item's listing_id, else left alone. -/
def dec_one (it : OrderItem) (l : Listing) : Listing :=
  if l.id == it.listing_id then apply_purchase l it.quantity else l

/-- The inner mark-as-sold loop for one order's items: every listing whose id
equals the item's listing_id is decremented. -/
def decrement_listings (listings : List Listing) (its : List OrderItem) :
    List Listing :=
  its.foldl (fun ls it => ls.map (dec_one it)) listings

/-- sum(i.price * i.quantity for i in items). -/
def order_sum (its : List OrderItem) : ℚ :=
  its.foldl (fun acc i => acc + i.price * (i.quantity : ℚ)) 0

/-- The order dict built for one seller's group. -/
def make_order (oid : String) (seller_id : String) (body : CheckoutBody)
    (now : String) (its : List OrderItem) : Order :=
  ⟨oid, seller_id, body.name.getD "", body.email.getD "", body.shipping_address,
   its, round2 (order_sum its), "pending", now, now⟩

/-- The create-order-and-mark-sold loop of checkout, one iteration per seller
group, carrying (orders, listings, created order ids).  gen_order_id k is the
uuid-based id of the order created in iteration k. -/
def checkout_loop (body : CheckoutBody) (gen_order_id : Nat → String)
    (now : String) (acc : List Order × List Listing × List String)
    (p : Nat × String × List OrderItem) :
    List Order × List Listing × List String :=
  let order := make_order (gen_order_id p.1) p.2.1 body now p.2.2
  (acc.1 ++ [order], decrement_listings acc.2.1 p.2.2, acc.2.2 ++ [order.id])

/-- checkout: resolve the cart (possibly creating an empty one), reject an
empty cart or falsy buyer name/email with 400, otherwise create one order per
seller group, decrement the purchased listings, and clear the cart. -/
def checkout (st : MarketState) (cookie : Option String) (newId : String)
    (body : CheckoutBody) (gen_order_id : Nat → String) (now : String) :
    MarketState × CheckoutResponse :=
  let r := get_or_create_cart_id st.carts cookie newId
  let st2 := { st with carts := r.2 }
  let items := (alookup r.2 r.1).getD []
  if items = [] then (st2, ⟨400, []⟩)
  else if body.email.getD "" = "" ∨ body.name.getD "" = "" then (st2, ⟨400, []⟩)
  else
    let groups := group_items st.listings items
    let res := groups.enum.foldl (checkout_loop body gen_order_id now)
      (st.orders, st.listings, [])
    ({ st with listings := res.2.1, orders := res.1,
               carts := aupsert r.2 r.1 [] },
     ⟨200, res.2.2⟩)

/-! ## POST /api/seller/sync -/

/-- An incoming listing dict posted to /api/seller/sync.  Every field is
Option-valued because dict.update(incoming) only overwrites keys present in
the request; seller_id may be supplied but is always overwritten by the
handler. -/
structure IncomingListing where
  id : Option String
  seller_id : Option String
  card_name : Option String
  set_code : Option String
  condition : Option String
  price : Option ℚ
  quantity : Option Int
  status : Option String
  rarity : Option String
  image_url : Option String
  synced_at : Option String
  deriving DecidableEq, Repr

/-- enrich_listing applied to an incoming dict (the same source function,
operating on a dict with possibly-absent keys): sets the image_url and rarity
keys when the dict has a falsy image_url and the fetch succeeds. -/
def enrich_incoming (scry : String → String → Option ScryData)
    (inc : IncomingListing) : IncomingListing :=
  if inc.image_url.getD "" = "" then
    match scry (inc.card_name.getD "") (inc.set_code.getD "") with
    | some d => { inc with image_url := some d.image_url, rarity := some d.rarity }
    | none => inc
  else inc

/-- The duplicate test of sync_listings: same id, or same card_name and
condition from the same seller.  Comparisons read absent keys as "", the
materialized default of the corresponding Listing field. -/
def matches_incoming (sid : String) (inc : IncomingListing) (l : Listing) : Bool :=
  l.id == inc.id.getD ""
  || (l.card_name == inc.card_name.getD "" && l.condition == inc.condition.getD ""
      && l.seller_id == sid)

/-- existing.update(incoming): every key present in incoming overwrites the
existing listing's value. -/
def dict_update (l : Listing) (inc : IncomingListing) : Listing :=
  ⟨inc.id.getD l.id, inc.seller_id.getD l.seller_id, inc.card_name.getD l.card_name,
   inc.set_code.getD l.set_code, inc.condition.getD l.condition,
   inc.price.getD l.price, inc.quantity.getD l.quantity, inc.status.getD l.status,
   inc.rarity.getD l.rarity, inc.image_url.getD l.image_url,
   inc.synced_at.getD l.synced_at⟩

/-- listings.append(incoming): the incoming dict becomes a stored listing,
absent keys materialized as the defaults every later read supplies. -/
def to_listing (inc : IncomingListing) : Listing :=
  ⟨inc.id.getD "", inc.seller_id.getD "", inc.card_name.getD "",
   inc.set_code.getD "", inc.condition.getD "", inc.price.getD 0,
   inc.quantity.getD 1, inc.status.getD "", inc.rarity.getD "",
   inc.image_url.getD "", inc.synced_at.getD ""⟩

/-- One iteration of the sync loop over (position, incoming): generate an id
when the given one is falsy, force seller_id and synced_at, enrich, then
update the first duplicate or append.  The accumulator carries (listings,
added, updated). -/
def sync_step (sid : String) (now : String)
    (scry : String → String → Option ScryData) (gen : Nat → String)
    (acc : List Listing × Nat × Nat) (p : Nat × IncomingListing) :
    List Listing × Nat × Nat :=
  let given := p.2.id.getD ""
  let pid := if given = "" then gen p.1 else given
  let inc1 : IncomingListing :=
    { p.2 with id := some pid, seller_id := some sid, synced_at := some now }
  let inc2 := enrich_incoming scry inc1
  match acc.1.find? (matches_incoming sid inc2) with
  | some _ =>
      (update_first (matches_incoming sid inc2) (fun l => dict_update l inc2) acc.1,
       acc.2.1, acc.2.2 + 1)
  | none => (acc.1 ++ [to_listing inc2], acc.2.1 + 1, acc.2.2)

/-- Response of POST /api/seller/sync. -/
structure SyncResponse where
  code : Nat
  added : Nat
  updated : Nat
  total_listings : Nat
  deriving DecidableEq, Repr

/-- sync_listings, after require_api_key has resolved the seller id sid: in
replace mode first drop every listing of sid, then run the sync loop. -/
def sync_listings (st : MarketState) (sid : String) (body_mode : Option String)
    (incoming : List IncomingListing) (scry : String → String → Option ScryData)
    (gen : Nat → String) (now : String) : MarketState × SyncResponse :=
  let mode := body_mode.getD "merge"
  let base := if mode = "replace"
              then st.listings.filter (fun l => ¬ (l.seller_id == sid))
              else st.listings
  let res := incoming.enum.foldl (sync_step sid now scry gen) (base, 0, 0)
  ({ st with listings := res.1 },
   ⟨200, res.2.1, res.2.2, (res.1.filter (fun l => l.seller_id == sid)).length⟩)

/-- The /api/seller/sync endpoint: require_api_key wrapped around
sync_listings, the handler receiving the authenticated seller's dict key as
sid. -/
def sync_endpoint (st : MarketState) (apiKey : Option String)
    (body_mode : Option String) (incoming : List IncomingListing)
    (scry : String → String → Option ScryData) (gen : Nat → String)
    (now : String) : MarketState × Except (Nat × String) SyncResponse :=
  with_api_key st.sellers apiKey
    (fun sid _s st0 => sync_listings st0 sid body_mode incoming scry gen now) st

/-- The listings a sync call derives from the request body alone: the sync
loop run against an empty listing collection.  Used to state the claim that
after a replace-mode sync the seller's listings are exactly those derived
from the request body. -/
def derived_listings (sid : String) (scry : String → String → Option ScryData)
    (gen : Nat → String) (now : String) (incoming : List IncomingListing) :
    List Listing :=
  (incoming.enum.foldl (sync_step sid now scry gen) ([], 0, 0)).1

/-! ## Operation sequences (for the quantity invariant) -/

/-- One state-mutating request of the kinds the invariant claim quantifies
over, with all request data and nondeterminism as parameters. -/
inductive Op where
  | add (cookie : Option String) (newId : String) (body : AddBody)
  | remove (cookie : Option String) (newId : String) (body : RemoveBody)
  | sync (sid : String) (mode : Option String) (incoming : List IncomingListing)
      (scry : String → String → Option ScryData) (gen : Nat → String) (now : String)
  | checkout (cookie : Option String) (newId : String) (body : CheckoutBody)
      (gen : Nat → String) (now : String)

/-- State reached after one request (responses discarded).  The sync case is
the post-authentication handler with sid the authenticated seller's id. -/
def apply_op (st : MarketState) : Op → MarketState
  | Op.add c n b => (add_to_cart st c n b).1
  | Op.remove c n b => (remove_from_cart st c n b).1
  | Op.sync sid m inc scry gen now => (sync_listings st sid m inc scry gen now).1
  | Op.checkout c n b gen now => (checkout st c n b gen now).1

/-- State reached after a sequence of requests. -/
def apply_ops (st : MarketState) (ops : List Op) : MarketState :=
  ops.foldl apply_op st

/-- Every listing's quantity is non-negative. -/
def listings_nonneg (st : MarketState) : Prop :=
  ∀ l ∈ st.listings, 0 ≤ l.quantity

/-- Every cart references each listing at most once (true of every cart the
server itself builds, since add_to_cart merges duplicates). -/
def carts_wf (st : MarketState) : Prop :=
  ∀ p ∈ st.carts, (p.2.map CartItem.listing_id).Nodup

/-- The availability condition under which a checkout is being performed:
each item of the cart the request resolves to demands no more than the
current quantity of every listing bearing its listing_id. -/
def checkout_safe (st : MarketState) (cookie : Option String) (newId : String) :
    Prop :=
  let r := get_or_create_cart_id st.carts cookie newId
  ∀ it ∈ (alookup r.2 r.1).getD ([] : List CartItem),
    ∀ l ∈ st.listings, l.id = it.listing_id → it.quantity ≤ l.quantity

/-- States reachable by guarded operations: sync requests carry non-negative
quantities and checkouts only run under the availability condition.  The base
states are those of the claim (all quantities non-negative) whose carts are
duplicate-free. -/
inductive GReach : MarketState → Prop where
  | init (st : MarketState) : listings_nonneg st → carts_wf st → GReach st
  | add {st : MarketState} (c : Option String) (n : String) (b : AddBody) :
      GReach st → GReach (apply_op st (Op.add c n b))
  | remove {st : MarketState} (c : Option String) (n : String) (b : RemoveBody) :
      GReach st → GReach (apply_op st (Op.remove c n b))
  | sync {st : MarketState} (sid : String) (m : Option String)
      (incoming : List IncomingListing) (scry : String → String → Option ScryData)
      (gen : Nat → String) (now : String) :
      GReach st → (∀ inc ∈ incoming, ∀ q : Int, inc.quantity = some q → 0 ≤ q) →
      GReach (apply_op st (Op.sync sid m incoming scry gen now))
  | checkout {st : MarketState} (c : Option String) (n : String)
      (b : CheckoutBody) (gen : Nat → String) (now : String) :
      GReach st → checkout_safe st c n →
      GReach (apply_op st (Op.checkout c n b gen now))

/-! # Helper lemmas -/

theorem find_seller_by_key_eq_none {sellers : List (String × Seller)} {k : String}
    (h : ∀ p ∈ sellers, p.2.api_key ≠ k) : find_seller_by_key sellers k = none := by
  induction sellers with
  | nil => rfl
  | cons p rest ih =>
      have h1 : p.2.api_key ≠ k := h p (List.mem_cons_self p rest)
      simp only [find_seller_by_key, if_neg h1]
      exact ih (fun q hq => h q (List.mem_cons_of_mem p hq))

theorem fetch_external_contacted (cache : List (String × CacheEntry)) (now : ℚ)
    (key : String) (api_response : Option ScryData) :
    (fetch_external cache now key api_response).contacted_api = true := by
  cases api_response <;> rfl

/-! # Claim theorems -/

/-- C7: a request guarded by the require_api_key decorator that carries no
API key (absent or empty, both Python-falsy) or a key matching no registered
seller receives HTTP 401 with one of the two JSON error bodies, the state is
untouched, and the wrapped handler — universally quantified here — is never
run. -/
theorem claim_C7 {St Resp : Type} (sellers : List (String × Seller))
    (apiKey : Option String) (handler : String → Seller → St → St × Resp)
    (st : St)
    (h : apiKey.getD "" = "" ∨ ∀ p ∈ sellers, p.2.api_key ≠ apiKey.getD "") :
    (with_api_key sellers apiKey handler st).1 = st ∧
      ((with_api_key sellers apiKey handler st).2 =
          Except.error (401, "API key required") ∨
        (with_api_key sellers apiKey handler st).2 =
          Except.error (401, "Invalid API key")) := by
  by_cases hk : apiKey.getD "" = ""
  · simp [with_api_key, require_api_key, hk]
  · rcases h with h | h
    · exact absurd h hk
    · have hfind := find_seller_by_key_eq_none h
      simp [with_api_key, require_api_key, hk, hfind]

/-- Witness for C7: with one registered seller holding key nxs_k1, a request
presenting key bad is rejected, the state (a counter a handler would bump) is
unchanged, and the response is one of the 401 errors. -/
theorem claim_C7_witness :
    (with_api_key [("S1", ⟨"Shop", "e@x", "loc", "nxs_k1", "t0", "active"⟩)]
        (some "bad") (fun _ _ (n : Nat) => (n + 1, true)) 0).1 = 0 ∧
      ((with_api_key [("S1", ⟨"Shop", "e@x", "loc", "nxs_k1", "t0", "active"⟩)]
          (some "bad") (fun _ _ (n : Nat) => (n + 1, true)) 0).2 =
          Except.error (401, "API key required") ∨
        (with_api_key [("S1", ⟨"Shop", "e@x", "loc", "nxs_k1", "t0", "active"⟩)]
          (some "bad") (fun _ _ (n : Nat) => (n + 1, true)) 0).2 =
          Except.error (401, "Invalid API key")) :=
  claim_C7 [("S1", ⟨"Shop", "e@x", "loc", "nxs_k1", "t0", "active"⟩)]
    (some "bad") (fun _ _ (n : Nat) => (n + 1, true)) 0
    (Or.inr (by decide))

/-- C9: fetch_from_scryfall answers from the cache without contacting the
external API exactly when the lowercased name|set key has a cache entry whose
timestamp is newer than 7 days before now, and in that case the cached data
is returned; in every other case the external API is consulted. -/
theorem claim_C9 (cache : List (String × CacheEntry)) (now : ℚ)
    (card_name : String) (set_code : Option String)
    (api_response : Option ScryData) :
    ((fetch_from_scryfall cache now card_name set_code api_response).contacted_api
        = false ↔
      ∃ e, alookup cache (cache_key card_name set_code) = some e ∧
        now - 7 * 24 * 3600 < e.timestamp) ∧
    (∀ e, alookup cache (cache_key card_name set_code) = some e →
      now - 7 * 24 * 3600 < e.timestamp →
      (fetch_from_scryfall cache now card_name set_code api_response).result
        = e.data) := by
  cases hl : alookup cache (cache_key card_name set_code) with
  | none =>
      have hr : fetch_from_scryfall cache now card_name set_code api_response
          = fetch_external cache now (cache_key card_name set_code) api_response := by
        simp [fetch_from_scryfall, hl]
      refine ⟨⟨fun hc => ?_, fun he => ?_⟩, fun e he hte => ?_⟩
      · rw [hr, fetch_external_contacted] at hc
        exact absurd hc (by decide)
      · rcases he with ⟨e, he1, _⟩
        exact Option.noConfusion he1
      · exact Option.noConfusion he
  | some e0 =>
      by_cases ht : now - 7 * 24 * 3600 < e0.timestamp
      · have hr : fetch_from_scryfall cache now card_name set_code api_response
            = ⟨e0.data, false, cache⟩ := by
          simp [fetch_from_scryfall, hl, ht]
        refine ⟨⟨fun _ => ⟨e0, rfl, ht⟩, fun _ => by rw [hr]⟩, fun e he hte => ?_⟩
        cases he
        rw [hr]
      · have hr : fetch_from_scryfall cache now card_name set_code api_response
            = fetch_external cache now (cache_key card_name set_code) api_response := by
          simp [fetch_from_scryfall, hl, ht]
        refine ⟨⟨fun hc => ?_, fun he => ?_⟩, fun e he hte => ?_⟩
        · rw [hr, fetch_external_contacted] at hc
          exact absurd hc (by decide)
        · rcases he with ⟨e, he1, hte1⟩
          cases he1
          exact absurd hte1 ht
        · cases he
          exact absurd hte ht

/-- Witness for C9: a fresh cache entry for foo|any at timestamp 900000 with
now = 1000000 is served without an external call, and a stale entry (or a
missing key) falls through to the external API. -/
theorem claim_C9_witness :
    ((fetch_from_scryfall [("foo|any", (⟨some ⟨"img", "rare"⟩, 900000⟩ : CacheEntry))] 1000000
        "Foo" none none).contacted_api = false ↔
      ∃ e, alookup [("foo|any", (⟨some ⟨"img", "rare"⟩, 900000⟩ : CacheEntry))]
          (cache_key "Foo" none) = some e ∧
        (1000000 : ℚ) - 7 * 24 * 3600 < e.timestamp) ∧
    (∀ e, alookup [("foo|any", (⟨some ⟨"img", "rare"⟩, 900000⟩ : CacheEntry))]
        (cache_key "Foo" none) = some e →
      (1000000 : ℚ) - 7 * 24 * 3600 < e.timestamp →
      (fetch_from_scryfall [("foo|any", (⟨some ⟨"img", "rare"⟩, 900000⟩ : CacheEntry))] 1000000
        "Foo" none none).result = e.data) :=
  claim_C9 [("foo|any", (⟨some ⟨"img", "rare"⟩, 900000⟩ : CacheEntry))] 1000000 "Foo" none none

theorem cart_lines_sum (ls : List Listing) (its : List CartItem) :
    ∀ (L : List CartLine) (t : ℚ),
      (((its.foldl (cart_line_step ls) (L, t)).1.map CartLine.subtotal).sum
          - (L.map CartLine.subtotal).sum)
        = (its.foldl (cart_line_step ls) (L, t)).2 - t := by
  induction its with
  | nil => intro L t; simp
  | cons it its ih =>
      intro L t
      simp only [List.foldl_cons]
      have key : (((cart_line_step ls (L, t) it).1.map CartLine.subtotal).sum
            - (L.map CartLine.subtotal).sum)
          = (cart_line_step ls (L, t) it).2 - t := by
        unfold cart_line_step
        cases find_listing ls it.listing_id with
        | none => simp
        | some l =>
            by_cases hst : l.status = "Active"
            · simp [hst]
            · simp [hst]
      have h2 := ih (cart_line_step ls (L, t) it).1 (cart_line_step ls (L, t) it).2
      rw [Prod.mk.eta] at h2
      linarith

theorem cart_lines_subtotal (ls : List Listing) (its : List CartItem) :
    ∀ (L : List CartLine) (t : ℚ) (x : CartLine),
      x ∈ (its.foldl (cart_line_step ls) (L, t)).1 →
      x ∈ L ∨ x.subtotal = x.price * (x.quantity : ℚ) := by
  induction its with
  | nil => intro L t x hx; exact Or.inl hx
  | cons it its ih =>
      intro L t x hx
      simp only [List.foldl_cons] at hx
      cases hf : find_listing ls it.listing_id with
      | none =>
          have hs : cart_line_step ls (L, t) it = (L, t) := by
            simp [cart_line_step, hf]
          rw [hs] at hx
          exact ih L t x hx
      | some l =>
          by_cases hst : l.status = "Active"
          · have hs : cart_line_step ls (L, t) it
                = (L ++ [⟨l.id, l.card_name, l.set_code, l.condition, l.price,
                          it.quantity, l.price * (it.quantity : ℚ), l.image_url⟩],
                   t + l.price * (it.quantity : ℚ)) := by
              simp [cart_line_step, hf, hst]
            rw [hs] at hx
            rcases ih _ _ x hx with h | h
            · rcases List.mem_append.mp h with h2 | h2
              · exact Or.inl h2
              · rcases List.mem_singleton.mp h2 with rfl
                exact Or.inr rfl
            · exact Or.inr h
          · have hs : cart_line_step ls (L, t) it = (L, t) := by
              simp [cart_line_step, hf, hst]
            rw [hs] at hx
            exact ih L t x hx

/-- C4: the total field of the GET /api/cart response is the rounded sum of
the returned items' subtotals, and every returned item's subtotal is its
price times its quantity. -/
theorem claim_C4 (st : MarketState) (cookie : Option String) (newId : String) :
    (get_cart st cookie newId).2.total
        = round2 (((get_cart st cookie newId).2.items.map CartLine.subtotal).sum) ∧
      ∀ x ∈ (get_cart st cookie newId).2.items,
        x.subtotal = x.price * (x.quantity : ℚ) := by
  constructor
  · show round2 (cart_lines st.listings _).2 = _
    refine congrArg round2 ?_
    have h := cart_lines_sum st.listings
      ((alookup (get_or_create_cart_id st.carts cookie newId).2
        (get_or_create_cart_id st.carts cookie newId).1).getD []) [] 0
    simp only [List.map_nil, List.sum_nil, sub_zero] at h
    exact h.symm
  · intro x hx
    have h := cart_lines_subtotal st.listings
      ((alookup (get_or_create_cart_id st.carts cookie newId).2
        (get_or_create_cart_id st.carts cookie newId).1).getD []) [] 0 x hx
    rcases h with h | h
    · exact absurd h (List.not_mem_nil x)
    · exact h

/-- Witness for C4: a cart holding three copies of a 2.5-priced listing; its
single line's subtotal is price times quantity and the total is the rounded
sum of subtotals. -/
theorem claim_C4_witness :
    ((get_cart
        ⟨[("S1", ⟨"Shop", "e@x", "loc", "nxs_k1", "t0", "active"⟩)],
         [⟨"L1", "S1", "Alpha", "abc", "NM", 5/2, 4, "Active", "rare", "img", ""⟩],
         [], [("A", [⟨"L1", 3⟩])]⟩
        (some "A") "N0").2.total
      = round2 ((((get_cart
        ⟨[("S1", ⟨"Shop", "e@x", "loc", "nxs_k1", "t0", "active"⟩)],
         [⟨"L1", "S1", "Alpha", "abc", "NM", 5/2, 4, "Active", "rare", "img", ""⟩],
         [], [("A", [⟨"L1", 3⟩])]⟩
        (some "A") "N0").2.items).map CartLine.subtotal).sum)) ∧
    CartLine.subtotal
        ⟨"L1", "Alpha", "abc", "NM", 5/2, 3, 5/2 * ((3 : Int) : ℚ), "img"⟩
      = (5/2 : ℚ) * (((3 : Int) : ℚ)) :=
  ⟨(claim_C4
      ⟨[("S1", ⟨"Shop", "e@x", "loc", "nxs_k1", "t0", "active"⟩)],
       [⟨"L1", "S1", "Alpha", "abc", "NM", 5/2, 4, "Active", "rare", "img", ""⟩],
       [], [("A", [⟨"L1", 3⟩])]⟩
      (some "A") "N0").1,
   (claim_C4
      ⟨[("S1", ⟨"Shop", "e@x", "loc", "nxs_k1", "t0", "active"⟩)],
       [⟨"L1", "S1", "Alpha", "abc", "NM", 5/2, 4, "Active", "rare", "img", ""⟩],
       [], [("A", [⟨"L1", 3⟩])]⟩
      (some "A") "N0").2
     ⟨"L1", "Alpha", "abc", "NM", 5/2, 3, 5/2 * ((3 : Int) : ℚ), "img"⟩
     (List.mem_singleton_self _)⟩

theorem alookup_aupsert_self {α : Type} (m : List (String × α)) (k : String)
    (v : α) : alookup (aupsert m k v) k = some v := by
  induction m with
  | nil => simp [aupsert, alookup]
  | cons p rest ih =>
      by_cases h : p.1 = k
      · simp [aupsert, alookup, h]
      · simp only [aupsert]
        rw [← Prod.mk.eta (p := p)]
        rw [if_neg h]
        simp only [alookup]
        rw [if_neg h]
        exact ih

theorem alookup_aupsert_ne {α : Type} (m : List (String × α)) (k k2 : String)
    (v : α) (h : k2 ≠ k) : alookup (aupsert m k v) k2 = alookup m k2 := by
  induction m with
  | nil =>
      have hne : ¬ (k = k2) := fun hh => h hh.symm
      simp [aupsert, alookup, hne]
  | cons p rest ih =>
      by_cases hp : p.1 = k
      · have hne : ¬ (p.1 = k2) := by
          rw [hp]; exact fun hh => h hh.symm
        rw [← Prod.mk.eta (p := p)]
        simp only [aupsert, if_pos hp, alookup, if_neg hne]
      · rw [← Prod.mk.eta (p := p)]
        simp only [aupsert, if_neg hp, alookup]
        by_cases hk2 : p.1 = k2
        · simp [hk2]
        · simp only [if_neg hk2]
          exact ih

/-- C5 counterexample to the claim as stated: a checkout request carrying no
known cart cookie creates a new empty cart before failing with 400 for the
empty cart, so the carts state is changed by this failing checkout. -/
theorem claim_C5_counterexample :
    (checkout ⟨[], [], [], []⟩ none "N" ⟨some "b@x", some "Bob", none⟩
        (fun _ => "ORD") "t").2.code = 400 ∧
      (checkout ⟨[], [], [], []⟩ none "N" ⟨some "b@x", some "Bob", none⟩
        (fun _ => "ORD") "t").1.carts
        ≠ (⟨[], [], [], []⟩ : MarketState).carts := by
  refine ⟨rfl, ?_⟩
  intro h
  exact List.noConfusion h

/-- C5 (amended): a checkout whose resolved cart is empty or whose buyer
email or name is falsy returns 400 and leaves listings, orders, sellers and
every pre-existing cart unchanged; the only possible change to carts is the
creation of one new empty cart under the fresh id newId (assumed not already
a cart key, as uuid4 guarantees in practice). -/
theorem claim_C5 (st : MarketState) (cookie : Option String) (newId : String)
    (body : CheckoutBody) (gen : Nat → String) (now : String)
    (hfresh : alookup st.carts newId = none)
    (hfail : (alookup (get_or_create_cart_id st.carts cookie newId).2
          (get_or_create_cart_id st.carts cookie newId).1).getD [] = []
        ∨ body.email.getD "" = "" ∨ body.name.getD "" = "") :
    (checkout st cookie newId body gen now).2.code = 400 ∧
    (checkout st cookie newId body gen now).1.listings = st.listings ∧
    (checkout st cookie newId body gen now).1.orders = st.orders ∧
    (checkout st cookie newId body gen now).1.sellers = st.sellers ∧
    (∀ k v, alookup st.carts k = some v →
      alookup (checkout st cookie newId body gen now).1.carts k = some v) ∧
    (∀ k v, alookup (checkout st cookie newId body gen now).1.carts k = some v →
      alookup st.carts k = some v ∨ (k = newId ∧ v = [])) := by
  by_cases hc : cookie.getD "" ≠ "" ∧ (alookup st.carts (cookie.getD "")).isSome
  · have hr : get_or_create_cart_id st.carts cookie newId
        = (cookie.getD "", st.carts) := by
      simp only [get_or_create_cart_id, if_pos hc]
    rw [hr] at hfail
    have hck : checkout st cookie newId body gen now
        = ({ st with carts := st.carts }, ⟨400, []⟩) := by
      unfold checkout
      rw [hr]
      by_cases hitems : (alookup st.carts (cookie.getD "")).getD [] = []
      · simp [hitems]
      · rcases hfail with hfail | hfail
        · exact absurd hfail hitems
        · simp [hitems, hfail]
    rw [hck]
    exact ⟨rfl, rfl, rfl, rfl, fun k v h => h, fun k v h => Or.inl h⟩
  · have hr : get_or_create_cart_id st.carts cookie newId
        = (newId, aupsert st.carts newId []) := by
      simp only [get_or_create_cart_id, if_neg hc]
    have hitems : (alookup (aupsert st.carts newId []) newId).getD ([] : List CartItem)
        = [] := by
      rw [alookup_aupsert_self]
      rfl
    have hck : checkout st cookie newId body gen now
        = ({ st with carts := aupsert st.carts newId [] }, ⟨400, []⟩) := by
      unfold checkout
      rw [hr]
      simp [hitems]
    rw [hck]
    refine ⟨rfl, rfl, rfl, rfl, fun k v h => ?_, fun k v h => ?_⟩
    · have hk : k ≠ newId := by
        intro hkk
        rw [hkk, hfresh] at h
        exact Option.noConfusion h
      show alookup (aupsert st.carts newId []) k = some v
      rw [alookup_aupsert_ne st.carts newId k [] hk]
      exact h
    · have h2 : alookup (aupsert st.carts newId []) k = some v := h
      by_cases hk : k = newId
      · rw [hk, alookup_aupsert_self] at h2
        cases h2
        exact Or.inr ⟨hk, rfl⟩
      · rw [alookup_aupsert_ne st.carts newId k [] hk] at h2
        exact Or.inl h2

/-- Witness for C5: a checkout with a known non-empty cart but a missing
email fails with 400, listings survive, and the existing cart is intact. -/
theorem claim_C5_witness :
    (checkout ⟨[], [⟨"L1", "S1", "Alpha", "abc", "NM", 2, 1, "Active", "r", "i", ""⟩],
        [], [("A", [⟨"L1", 1⟩])]⟩
      (some "A") "N" ⟨none, some "Bob", none⟩ (fun _ => "ORD") "t").2.code = 400 ∧
    (checkout ⟨[], [⟨"L1", "S1", "Alpha", "abc", "NM", 2, 1, "Active", "r", "i", ""⟩],
        [], [("A", [⟨"L1", 1⟩])]⟩
      (some "A") "N" ⟨none, some "Bob", none⟩ (fun _ => "ORD") "t").1.listings
      = [⟨"L1", "S1", "Alpha", "abc", "NM", 2, 1, "Active", "r", "i", ""⟩] ∧
    alookup (checkout ⟨[], [⟨"L1", "S1", "Alpha", "abc", "NM", 2, 1, "Active", "r", "i", ""⟩],
        [], [("A", [⟨"L1", 1⟩])]⟩
      (some "A") "N" ⟨none, some "Bob", none⟩ (fun _ => "ORD") "t").1.carts "A"
      = some [⟨"L1", 1⟩] := by
  have h := claim_C5 ⟨[], [⟨"L1", "S1", "Alpha", "abc", "NM", 2, 1, "Active", "r", "i", ""⟩],
      [], [("A", [⟨"L1", 1⟩])]⟩
    (some "A") "N" ⟨none, some "Bob", none⟩ (fun _ => "ORD") "t" (by decide)
    (Or.inr (Or.inl rfl))
  exact ⟨h.1, h.2.1, h.2.2.2.2.1 "A" [⟨"L1", 1⟩] (by decide)⟩

theorem mem_of_skip_filter {α : Type} {c : Prop} [Decidable c] {xs : List α}
    {p : α → Bool} {x : α} (h : x ∈ if c then xs else xs.filter p) :
    x ∈ xs ∧ (¬ c → p x = true) := by
  by_cases hc : c
  · rw [if_pos hc] at h
    exact ⟨h, fun hcc => absurd hc hcc⟩
  · rw [if_neg hc] at h
    exact ⟨(List.mem_filter.mp h).1, fun _ => (List.mem_filter.mp h).2⟩

theorem enrich_listing_fields (scry : String → String → Option ScryData)
    (l : Listing) :
    (enrich_listing scry l).status = l.status ∧
    (enrich_listing scry l).id = l.id ∧
    (enrich_listing scry l).seller_id = l.seller_id ∧
    (enrich_listing scry l).card_name = l.card_name ∧
    (enrich_listing scry l).set_code = l.set_code ∧
    (enrich_listing scry l).condition = l.condition ∧
    (enrich_listing scry l).price = l.price ∧
    (enrich_listing scry l).quantity = l.quantity := by
  unfold enrich_listing
  by_cases h : l.image_url = ""
  · rw [if_pos h]
    cases scry l.card_name l.set_code <;>
      exact ⟨rfl, rfl, rfl, rfl, rfl, rfl, rfl, rfl⟩
  · rw [if_neg h]
    exact ⟨rfl, rfl, rfl, rfl, rfl, rfl, rfl, rfl⟩

theorem enrich_listing_of_image (scry : String → String → Option ScryData)
    (l : Listing) (h : l.image_url ≠ "") : enrich_listing scry l = l := by
  unfold enrich_listing
  rw [if_neg h]

/-- Every listing in the GET /api/listings response is the enrichment of a
stored listing that passed, pre-enrichment, the Active test and every
supplied filter. -/
theorem get_listings_src (ls : List Listing) (q : ListingQuery)
    (scry : String → String → Option ScryData) (l2 : Listing)
    (h : l2 ∈ (get_listings ls q scry).listings) :
    ∃ l, l ∈ ls ∧ l2 = enrich_listing scry l ∧
      l.status = "Active" ∧
      (str_lower (q.name.getD "") ≠ "" →
        strContains (str_lower l.card_name) (str_lower (q.name.getD "")) = true) ∧
      (str_lower (q.set.getD "") ≠ "" →
        strContains (str_lower l.set_code) (str_lower (q.set.getD "")) = true) ∧
      (q.seller.getD "" ≠ "" → l.seller_id = q.seller.getD "") ∧
      (q.min_price ≠ none → q.min_price.getD 0 ≤ l.price) ∧
      (q.max_price ≠ none → l.price ≤ q.max_price.getD 0) ∧
      (str_lower (q.rarity.getD "") ≠ "" →
        strContains (str_lower l.rarity) (str_lower (q.rarity.getD "")) = true) := by
  simp only [get_listings] at h
  replace h := List.mem_of_mem_take h
  replace h := List.mem_of_mem_drop h
  obtain ⟨l, hl, hle⟩ := List.mem_map.mp h
  obtain ⟨hl, hrar⟩ := mem_of_skip_filter hl
  obtain ⟨hl, hmax⟩ := mem_of_skip_filter hl
  obtain ⟨hl, hmin⟩ := mem_of_skip_filter hl
  obtain ⟨hl, hsel⟩ := mem_of_skip_filter hl
  obtain ⟨hl, hset⟩ := mem_of_skip_filter hl
  obtain ⟨hl, hname⟩ := mem_of_skip_filter hl
  obtain ⟨hmem, hact⟩ := List.mem_filter.mp hl
  refine ⟨l, hmem, hle.symm, eq_of_beq hact, hname, hset,
    fun hs => eq_of_beq (hsel hs), fun hm => of_decide_eq_true (hmin hm),
    fun hM => of_decide_eq_true (hmax hM), hrar⟩

/-- C3 counterexample to the claim as stated: a returned listing can fail the
supplied rarity filter, because the enrichment loop runs after filtering and
overwrites the rarity of listings that lacked an image.  Here a listing with
rarity Mythic and no image passes the rarity=myth filter, is then enriched to
rarity rare, and is returned not containing the requested substring. -/
theorem claim_C3_counterexample :
    ∃ l2 ∈ (get_listings
        [⟨"L1", "S1", "Alpha", "abc", "NM", 5, 1, "Active", "Mythic", "", ""⟩]
        ⟨none, none, none, none, none, some "myth", 100, 0⟩
        (fun _ _ => some ⟨"http", "rare"⟩)).listings,
      strContains (str_lower l2.rarity)
        (str_lower ((⟨none, none, none, none, none, some "myth", 100, 0⟩ :
          ListingQuery).rarity.getD "")) = false := by
  decide

/-- C3 (amended): every listing returned by GET /api/listings has status
Active and satisfies the supplied name, set, seller, min_price and max_price
filters; it is the enrichment of a stored listing that also satisfied the
rarity filter, and whenever that listing already had an image (so enrichment
left it unchanged) the returned listing satisfies the rarity filter as well.
The returned rarity itself can differ, as the counterexample shows. -/
theorem claim_C3 (ls : List Listing) (q : ListingQuery)
    (scry : String → String → Option ScryData) (l2 : Listing)
    (h : l2 ∈ (get_listings ls q scry).listings) :
    l2.status = "Active" ∧
    (str_lower (q.name.getD "") ≠ "" →
      strContains (str_lower l2.card_name) (str_lower (q.name.getD "")) = true) ∧
    (str_lower (q.set.getD "") ≠ "" →
      strContains (str_lower l2.set_code) (str_lower (q.set.getD "")) = true) ∧
    (q.seller.getD "" ≠ "" → l2.seller_id = q.seller.getD "") ∧
    (q.min_price ≠ none → q.min_price.getD 0 ≤ l2.price) ∧
    (q.max_price ≠ none → l2.price ≤ q.max_price.getD 0) ∧
    (∃ l, l ∈ ls ∧ l2 = enrich_listing scry l ∧
      (str_lower (q.rarity.getD "") ≠ "" →
        strContains (str_lower l.rarity) (str_lower (q.rarity.getD "")) = true) ∧
      (l.image_url ≠ "" → l2 = l)) := by
  obtain ⟨l, hmem, hl2, hact, hname, hset, hsel, hmin, hmax, hrar⟩ :=
    get_listings_src ls q scry l2 h
  obtain ⟨f1, _, f3, f4, f5, _, f7, _⟩ := enrich_listing_fields scry l
  subst hl2
  refine ⟨f1.trans hact, ?_, ?_, ?_, ?_, ?_, l, hmem, rfl, hrar, ?_⟩
  · rw [f4]; exact hname
  · rw [f5]; exact hset
  · rw [f3]; exact hsel
  · rw [f7]; exact hmin
  · rw [f7]; exact hmax
  · exact fun hi => enrich_listing_of_image scry l hi

/-- Witness for C3: a browse with name, seller and rarity filters over one
already-imaged listing; the theorem yields its Active status and its
seller. -/
theorem claim_C3_witness :
    (⟨"L2", "S1", "Beta", "abc", "NM", 5, 1, "Active", "rare", "img", ""⟩ :
        Listing).status = "Active" ∧
    (⟨"L2", "S1", "Beta", "abc", "NM", 5, 1, "Active", "rare", "img", ""⟩ :
        Listing).seller_id
      = ((⟨some "BET", none, some "S1", none, none, some "RA", 100, 0⟩ :
          ListingQuery).seller.getD "") := by
  have h := claim_C3
    [⟨"L2", "S1", "Beta", "abc", "NM", 5, 1, "Active", "rare", "img", ""⟩]
    ⟨some "BET", none, some "S1", none, none, some "RA", 100, 0⟩
    (fun _ _ => none)
    ⟨"L2", "S1", "Beta", "abc", "NM", 5, 1, "Active", "rare", "img", ""⟩
    (by decide)
  exact ⟨h.1, h.2.2.2.1 (by decide)⟩

theorem enrich_incoming_fields (scry : String → String → Option ScryData)
    (inc : IncomingListing) :
    (enrich_incoming scry inc).id = inc.id ∧
    (enrich_incoming scry inc).seller_id = inc.seller_id ∧
    (enrich_incoming scry inc).card_name = inc.card_name ∧
    (enrich_incoming scry inc).condition = inc.condition ∧
    (enrich_incoming scry inc).quantity = inc.quantity := by
  unfold enrich_incoming
  by_cases h : inc.image_url.getD "" = ""
  · rw [if_pos h]
    cases scry (inc.card_name.getD "") (inc.set_code.getD "") <;>
      exact ⟨rfl, rfl, rfl, rfl, rfl⟩
  · rw [if_neg h]
    exact ⟨rfl, rfl, rfl, rfl, rfl⟩

theorem mem_update_first {α : Type} (p : α → Bool) (f : α → α) (xs : List α)
    (x : α) (h : x ∈ update_first p f xs) : x ∈ xs ∨ ∃ y, y ∈ xs ∧ x = f y := by
  induction xs with
  | nil => exact Or.inl h
  | cons a as ih =>
      unfold update_first at h
      by_cases hp : p a = true
      · rw [if_pos hp] at h
        rcases List.mem_cons.mp h with h | h
        · exact Or.inr ⟨a, List.mem_cons_self a as, h⟩
        · exact Or.inl (List.mem_cons_of_mem a h)
      · rw [if_neg hp] at h
        rcases List.mem_cons.mp h with h | h
        · exact Or.inl (h ▸ List.mem_cons_self a as)
        · rcases ih h with h2 | ⟨y, hy, hxy⟩
          · exact Or.inl (List.mem_cons_of_mem a h2)
          · exact Or.inr ⟨y, List.mem_cons_of_mem a hy, hxy⟩

/-- The insert-or-update half of one sync-loop iteration, for any processed
incoming dict whose seller_id has been forced to sid: the result extends base
only with listings owned by sid. -/
theorem sync_insert_seller (sid : String) (inc2 : IncomingListing)
    (base : List Listing) (n1 n2 : Nat) (l : Listing)
    (hs : inc2.seller_id = some sid)
    (h : l ∈ (match base.find? (matches_incoming sid inc2) with
              | some _ => (update_first (matches_incoming sid inc2)
                  (fun x => dict_update x inc2) base, n1, n2 + 1)
              | none => (base ++ [to_listing inc2], n1 + 1, n2)).1) :
    l ∈ base ∨ l.seller_id = sid := by
  cases hf : base.find? (matches_incoming sid inc2) with
  | none =>
      rw [hf] at h
      have h2 : l ∈ base ++ [to_listing inc2] := h
      rcases List.mem_append.mp h2 with h3 | h3
      · exact Or.inl h3
      · rcases List.mem_singleton.mp h3 with rfl
        refine Or.inr ?_
        show inc2.seller_id.getD "" = sid
        rw [hs]
        rfl
  | some l0 =>
      rw [hf] at h
      have h2 : l ∈ update_first (matches_incoming sid inc2)
          (fun x => dict_update x inc2) base := h
      rcases mem_update_first _ _ _ _ h2 with h3 | ⟨y, hy, rfl⟩
      · exact Or.inl h3
      · refine Or.inr ?_
        show inc2.seller_id.getD y.seller_id = sid
        rw [hs]
        rfl

/-- Any listing present after one sync-loop iteration was already in the
accumulator or carries the authenticated seller's id. -/
theorem sync_step_seller (sid now : String)
    (scry : String → String → Option ScryData) (gen : Nat → String)
    (acc : List Listing × Nat × Nat) (p : Nat × IncomingListing) (l : Listing)
    (h : l ∈ (sync_step sid now scry gen acc p).1) :
    l ∈ acc.1 ∨ l.seller_id = sid := by
  unfold sync_step at h
  refine sync_insert_seller sid _ acc.1 acc.2.1 acc.2.2 l ?_ h
  rw [(enrich_incoming_fields scry _).2.1]

/-- Any listing present after the whole sync loop was in the starting
collection or carries the authenticated seller's id. -/
theorem sync_fold_seller (sid now : String)
    (scry : String → String → Option ScryData) (gen : Nat → String)
    (ps : List (Nat × IncomingListing)) :
    ∀ (acc : List Listing × Nat × Nat) (l : Listing),
      l ∈ (ps.foldl (sync_step sid now scry gen) acc).1 →
      l ∈ acc.1 ∨ l.seller_id = sid := by
  induction ps with
  | nil => exact fun acc l h => Or.inl h
  | cons p ps ih =>
      intro acc l h
      rw [List.foldl_cons] at h
      rcases ih (sync_step sid now scry gen acc p) l h with h2 | h2
      · exact sync_step_seller sid now scry gen acc p l h2
      · exact Or.inr h2

/-- C10: every listing inserted or updated by an authenticated
POST /api/seller/sync ends with seller_id equal to the authenticated seller's
id, regardless of any seller_id in the request body — every listing of the
resulting collection either survives verbatim from the previous state or
belongs to the authenticated seller. -/
theorem claim_C10 (st : MarketState) (apiKey : Option String)
    (mode : Option String) (incoming : List IncomingListing)
    (scry : String → String → Option ScryData) (gen : Nat → String)
    (now : String) (sid : String) (s : Seller)
    (hauth : require_api_key st.sellers apiKey = Except.ok (sid, s)) :
    ∀ l ∈ (sync_endpoint st apiKey mode incoming scry gen now).1.listings,
      l.seller_id = sid ∨ l ∈ st.listings := by
  intro l hl
  unfold sync_endpoint with_api_key at hl
  rw [hauth] at hl
  have hl2 : l ∈ ((sync_listings st sid mode incoming scry gen now).1).listings := hl
  unfold sync_listings at hl2
  rcases sync_fold_seller sid now scry gen incoming.enum _ l hl2 with h | h
  · by_cases hm : mode.getD "merge" = "replace"
    · rw [if_pos hm] at h
      exact Or.inr (List.mem_filter.mp h).1
    · rw [if_neg hm] at h
      exact Or.inr h
  · exact Or.inl h

/-- Witness for C10: seller S2 syncs an incoming listing whose id X collides
with a listing owned by S1 and whose body even claims seller_id S1; the
resulting merged listing still belongs to S2 (left disjunct). -/
theorem claim_C10_witness :
    (⟨"X", "S2", "A2", "s", "NM", 3, 7, "Active", "r", "img2", "t"⟩ :
        Listing).seller_id = "S2" ∨
    (⟨"X", "S2", "A2", "s", "NM", 3, 7, "Active", "r", "img2", "t"⟩ : Listing)
      ∈ (⟨[("S2", ⟨"ShopB", "b@x", "loc", "k2", "t0", "active"⟩)],
          [⟨"X", "S1", "A", "s", "NM", 5, 7, "Active", "r", "img", ""⟩],
          [], []⟩ : MarketState).listings :=
  claim_C10
    ⟨[("S2", ⟨"ShopB", "b@x", "loc", "k2", "t0", "active"⟩)],
     [⟨"X", "S1", "A", "s", "NM", 5, 7, "Active", "r", "img", ""⟩], [], []⟩
    (some "k2") none
    [⟨some "X", some "S1", some "A2", none, some "NM", some 3, none,
      some "Active", none, some "img2", none⟩]
    (fun _ _ => none) (fun _ => "G") "t" "S2"
    ⟨"ShopB", "b@x", "loc", "k2", "t0", "active"⟩ rfl
    ⟨"X", "S2", "A2", "s", "NM", 3, 7, "Active", "r", "img2", "t"⟩
    (by decide)

theorem find?_append_of_none {α : Type} {A : List α} {p : α → Bool}
    (hA : ∀ a ∈ A, p a = false) (B : List α) :
    (A ++ B).find? p = B.find? p := by
  induction A with
  | nil => rfl
  | cons a as ih =>
      rw [List.cons_append,
        List.find?_cons_of_neg _ (by rw [hA a (List.mem_cons_self a as)]; decide)]
      exact ih (fun x hx => hA x (List.mem_cons_of_mem a hx))

theorem update_first_append_of_none {α : Type} {A : List α} {p : α → Bool}
    (hA : ∀ a ∈ A, p a = false) (f : α → α) (B : List α) :
    update_first p f (A ++ B) = A ++ update_first p f B := by
  induction A with
  | nil => rfl
  | cons a as ih =>
      have ha : p a = false := hA a (List.mem_cons_self a as)
      show (if p a = true then f a :: (as ++ B) else a :: update_first p f (as ++ B))
          = (a :: as) ++ update_first p f B
      rw [ha, if_neg (by decide), ih (fun x hx => hA x (List.mem_cons_of_mem a hx))]
      rfl

theorem mem_of_mem_enumFrom {α : Type} (xs : List α) :
    ∀ (n : ℕ) (p : ℕ × α), p ∈ xs.enumFrom n → p.2 ∈ xs := by
  induction xs with
  | nil => intro n p h; exact absurd h (List.not_mem_nil p)
  | cons a as ih =>
      intro n p h
      rcases List.mem_cons.mp h with h | h
      · rw [h]; exact List.mem_cons_self a as
      · exact List.mem_cons_of_mem a (ih (n + 1) p h)

theorem mem_of_mem_enum {α : Type} {xs : List α} {p : ℕ × α} (h : p ∈ xs.enum) :
    p.2 ∈ xs :=
  mem_of_mem_enumFrom xs 0 p h

/-- A survivor of another seller is never matched as a duplicate by an
incoming listing whose processed id is fresh. -/
theorem matches_incoming_survivor (sid : String) (inc2 : IncomingListing)
    (l : Listing) (hsid : l.seller_id ≠ sid) (hid : inc2.id.getD "" ≠ l.id) :
    matches_incoming sid inc2 l = false := by
  unfold matches_incoming
  have h1 : (l.id == inc2.id.getD "") = false := by
    rw [beq_eq_false_iff_ne]
    exact fun h => hid h.symm
  have h2 : (l.seller_id == sid) = false := by
    rw [beq_eq_false_iff_ne]
    exact hsid
  rw [h1, h2]
  simp

/-- The insert-or-update half of one sync-loop iteration over sur ++ D, when
the duplicate test rejects everything in sur: it acts on the D part only. -/
theorem sync_insert_shift (sid : String) (inc2 : IncomingListing)
    (sur D : List Listing) (n1 n2 : Nat)
    (hnone : ∀ l ∈ sur, matches_incoming sid inc2 l = false) :
    (match (sur ++ D).find? (matches_incoming sid inc2) with
     | some _ => (update_first (matches_incoming sid inc2)
         (fun x => dict_update x inc2) (sur ++ D), n1, n2 + 1)
     | none => ((sur ++ D) ++ [to_listing inc2], n1 + 1, n2))
    = (sur ++ (match D.find? (matches_incoming sid inc2) with
               | some _ => (update_first (matches_incoming sid inc2)
                   (fun x => dict_update x inc2) D, n1, n2 + 1)
               | none => (D ++ [to_listing inc2], n1 + 1, n2)).1,
       (match D.find? (matches_incoming sid inc2) with
        | some _ => (update_first (matches_incoming sid inc2)
            (fun x => dict_update x inc2) D, n1, n2 + 1)
        | none => (D ++ [to_listing inc2], n1 + 1, n2)).2.1,
       (match D.find? (matches_incoming sid inc2) with
        | some _ => (update_first (matches_incoming sid inc2)
            (fun x => dict_update x inc2) D, n1, n2 + 1)
        | none => (D ++ [to_listing inc2], n1 + 1, n2)).2.2) := by
  rw [find?_append_of_none hnone D]
  cases hf : D.find? (matches_incoming sid inc2) with
  | none =>
      show ((sur ++ D) ++ [to_listing inc2], n1 + 1, n2)
          = (sur ++ (D ++ [to_listing inc2]), n1 + 1, n2)
      rw [List.append_assoc]
  | some l0 =>
      show (update_first (matches_incoming sid inc2)
          (fun x => dict_update x inc2) (sur ++ D), n1, n2 + 1)
          = (sur ++ update_first (matches_incoming sid inc2)
              (fun x => dict_update x inc2) D, n1, n2 + 1)
      rw [update_first_append_of_none hnone]

/-- One sync-loop iteration over sur ++ D, when no incoming id can touch sur
(different seller, fresh ids), acts on the D part only. -/
theorem sync_step_shift (sid now : String)
    (scry : String → String → Option ScryData) (gen : Nat → String)
    (sur D : List Listing) (n1 n2 : Nat) (p : Nat × IncomingListing)
    (hsur : ∀ l ∈ sur, l.seller_id ≠ sid)
    (hfresh : ∀ l ∈ sur,
      (if p.2.id.getD "" = "" then gen p.1 else p.2.id.getD "") ≠ l.id) :
    sync_step sid now scry gen (sur ++ D, n1, n2) p
      = (sur ++ (sync_step sid now scry gen (D, n1, n2) p).1,
         (sync_step sid now scry gen (D, n1, n2) p).2.1,
         (sync_step sid now scry gen (D, n1, n2) p).2.2) := by
  unfold sync_step
  refine sync_insert_shift sid _ sur D n1 n2 ?_
  intro l hl
  refine matches_incoming_survivor sid _ l (hsur l hl) ?_
  rw [(enrich_incoming_fields scry _).1]
  show (some (if p.2.id.getD "" = "" then gen p.1 else p.2.id.getD "")).getD "" ≠ l.id
  exact hfresh l hl

/-- The whole sync loop over sur ++ D splits off the untouched survivors. -/
theorem sync_fold_shift (sid now : String)
    (scry : String → String → Option ScryData) (gen : Nat → String)
    (ps : List (Nat × IncomingListing)) :
    ∀ (sur D : List Listing) (n1 n2 : Nat),
      (∀ l ∈ sur, l.seller_id ≠ sid) →
      (∀ l ∈ sur, ∀ p ∈ ps,
        (if p.2.id.getD "" = "" then gen p.1 else p.2.id.getD "") ≠ l.id) →
      ps.foldl (sync_step sid now scry gen) (sur ++ D, n1, n2)
        = (sur ++ (ps.foldl (sync_step sid now scry gen) (D, n1, n2)).1,
           (ps.foldl (sync_step sid now scry gen) (D, n1, n2)).2.1,
           (ps.foldl (sync_step sid now scry gen) (D, n1, n2)).2.2) := by
  induction ps with
  | nil => intro sur D n1 n2 _ _; rfl
  | cons p ps ih =>
      intro sur D n1 n2 hsur hfresh
      rw [List.foldl_cons, List.foldl_cons]
      rw [sync_step_shift sid now scry gen sur D n1 n2 p hsur
        (fun l hl => hfresh l hl p (List.mem_cons_self p ps))]
      rw [← Prod.mk.eta (p := (sync_step sid now scry gen (D, n1, n2) p).2)]
      rw [ih sur (sync_step sid now scry gen (D, n1, n2) p).1
        (sync_step sid now scry gen (D, n1, n2) p).2.1
        (sync_step sid now scry gen (D, n1, n2) p).2.2 hsur
        (fun l hl pp hpp => hfresh l hl pp (List.mem_cons_of_mem p hpp))]

/-- C6 counterexample to the claim as stated: in replace mode, an incoming
listing whose id collides with a surviving listing of a different seller
merges into that listing instead of being inserted fresh, so the seller's
resulting listings are not exactly those derived from the request body: the
hijacked listing keeps its old quantity 7 where the request body (which has
no quantity) would yield the default 1. -/
theorem claim_C6_counterexample :
    require_api_key
        [("S2", ⟨"ShopB", "b@x", "loc", "k2", "t0", "active"⟩)] (some "k2")
      = Except.ok ("S2", ⟨"ShopB", "b@x", "loc", "k2", "t0", "active"⟩) ∧
    ((sync_endpoint
        ⟨[("S2", ⟨"ShopB", "b@x", "loc", "k2", "t0", "active"⟩)],
         [⟨"X", "S1", "A", "s", "NM", 5, 7, "Active", "r", "img", ""⟩], [], []⟩
        (some "k2") (some "replace")
        [⟨some "X", none, some "B", none, some "NM", some 3, none, some "Active",
          none, some "img2", none⟩]
        (fun _ _ => none) (fun _ => "G") "t").1.listings.filter
        (fun l => l.seller_id == "S2")).map Listing.quantity
      ≠ (derived_listings "S2" (fun _ _ => none) (fun _ => "G") "t"
          [⟨some "X", none, some "B", none, some "NM", some 3, none, some "Active",
            none, some "img2", none⟩]).map Listing.quantity :=
  ⟨rfl, by decide⟩

/-- C6 (amended): for an authenticated replace-mode sync whose incoming
listings' processed ids are fresh (no incoming id, given or generated,
collides with a surviving listing of another seller), every prior listing of
the authenticated seller is removed and the resulting collection is the
survivors followed by exactly the listings derived from the request body; in
particular the seller's listings afterwards are exactly those derived from
the request body.  Without the freshness condition an id collision hijacks
another seller's listing, see the counterexample. -/
theorem claim_C6 (st : MarketState) (apiKey : Option String)
    (incoming : List IncomingListing)
    (scry : String → String → Option ScryData) (gen : Nat → String)
    (now : String) (sid : String) (s : Seller)
    (hauth : require_api_key st.sellers apiKey = Except.ok (sid, s))
    (hfresh1 : ∀ l ∈ st.listings, l.seller_id ≠ sid →
      ∀ inc ∈ incoming, inc.id.getD "" ≠ "" → inc.id.getD "" ≠ l.id)
    (hfresh2 : ∀ l ∈ st.listings, l.seller_id ≠ sid → ∀ n, gen n ≠ l.id) :
    (sync_endpoint st apiKey (some "replace") incoming scry gen now).1.listings
      = st.listings.filter (fun l => ¬ (l.seller_id == sid))
        ++ derived_listings sid scry gen now incoming ∧
    (sync_endpoint st apiKey (some "replace") incoming scry gen
        now).1.listings.filter (fun l => l.seller_id == sid)
      = derived_listings sid scry gen now incoming := by
  have hsurP : ∀ l ∈ st.listings.filter (fun l => ¬ (l.seller_id == sid)),
      l.seller_id ≠ sid := by
    intro l hl
    have h2 := (List.mem_filter.mp hl).2
    simp only [decide_eq_true_eq] at h2
    exact fun heq => h2 (beq_iff_eq.mpr heq)
  have hsurM : ∀ l ∈ st.listings.filter (fun l => ¬ (l.seller_id == sid)),
      l ∈ st.listings := fun l hl => (List.mem_filter.mp hl).1
  have hfreshP : ∀ l ∈ st.listings.filter (fun l => ¬ (l.seller_id == sid)),
      ∀ p ∈ incoming.enum,
      (if p.2.id.getD "" = "" then gen p.1 else p.2.id.getD "") ≠ l.id := by
    intro l hl p hp
    by_cases hgiven : p.2.id.getD "" = ""
    · rw [if_pos hgiven]
      exact hfresh2 l (hsurM l hl) (hsurP l hl) p.1
    · rw [if_neg hgiven]
      exact hfresh1 l (hsurM l hl) (hsurP l hl) p.2 (mem_of_mem_enum hp) hgiven
  have hshift := sync_fold_shift sid now scry gen incoming.enum
    (st.listings.filter (fun l => ¬ (l.seller_id == sid))) [] 0 0 hsurP hfreshP
  rw [List.append_nil] at hshift
  have hres : (sync_endpoint st apiKey (some "replace") incoming scry gen
      now).1.listings
      = (incoming.enum.foldl (sync_step sid now scry gen)
          (st.listings.filter (fun l => ¬ (l.seller_id == sid)), 0, 0)).1 := by
    unfold sync_endpoint with_api_key
    rw [hauth]
    rfl
  have h1 : (sync_endpoint st apiKey (some "replace") incoming scry gen
      now).1.listings
      = st.listings.filter (fun l => ¬ (l.seller_id == sid))
        ++ derived_listings sid scry gen now incoming := by
    rw [hres, hshift]
    rfl
  refine ⟨h1, ?_⟩
  rw [h1, List.filter_append]
  have hA : (st.listings.filter (fun l => ¬ (l.seller_id == sid))).filter
      (fun l => l.seller_id == sid) = [] := by
    rw [List.filter_eq_nil_iff]
    intro a ha
    intro hbeq
    exact hsurP a ha (eq_of_beq hbeq)
  have hB : (derived_listings sid scry gen now incoming).filter
      (fun l => l.seller_id == sid)
      = derived_listings sid scry gen now incoming := by
    rw [List.filter_eq_self]
    intro a ha
    rcases sync_fold_seller sid now scry gen incoming.enum ([], 0, 0) a ha with
      h2 | h2
    · exact absurd h2 (List.not_mem_nil a)
    · exact beq_iff_eq.mpr h2
  rw [hA, hB, List.nil_append]

/-- Witness for C6: seller S2 replace-syncs one incoming listing with fresh
id X while seller S1 owns listing Y; afterwards the collection is S1's
survivor followed by the body-derived listing, and S2's listings are exactly
the body-derived ones. -/
theorem claim_C6_witness :
    (sync_endpoint
        ⟨[("S2", ⟨"ShopB", "b@x", "loc", "k2", "t0", "active"⟩)],
         [⟨"Y", "S1", "A", "s", "NM", 5, 2, "Active", "r", "img", ""⟩], [], []⟩
        (some "k2") (some "replace")
        [⟨some "X", none, some "B", none, some "NM", some 3, some 4,
          some "Active", none, some "img2", none⟩]
        (fun _ _ => none) (fun _ => "G") "t").1.listings
      = (⟨[("S2", ⟨"ShopB", "b@x", "loc", "k2", "t0", "active"⟩)],
          [⟨"Y", "S1", "A", "s", "NM", 5, 2, "Active", "r", "img", ""⟩], [], []⟩ :
          MarketState).listings.filter (fun l => ¬ (l.seller_id == "S2"))
        ++ derived_listings "S2" (fun _ _ => none) (fun _ => "G") "t"
          [⟨some "X", none, some "B", none, some "NM", some 3, some 4,
            some "Active", none, some "img2", none⟩] ∧
    (sync_endpoint
        ⟨[("S2", ⟨"ShopB", "b@x", "loc", "k2", "t0", "active"⟩)],
         [⟨"Y", "S1", "A", "s", "NM", 5, 2, "Active", "r", "img", ""⟩], [], []⟩
        (some "k2") (some "replace")
        [⟨some "X", none, some "B", none, some "NM", some 3, some 4,
          some "Active", none, some "img2", none⟩]
        (fun _ _ => none) (fun _ => "G") "t").1.listings.filter
        (fun l => l.seller_id == "S2")
      = derived_listings "S2" (fun _ _ => none) (fun _ => "G") "t"
          [⟨some "X", none, some "B", none, some "NM", some 3, some 4,
            some "Active", none, some "img2", none⟩] :=
  claim_C6
    ⟨[("S2", ⟨"ShopB", "b@x", "loc", "k2", "t0", "active"⟩)],
     [⟨"Y", "S1", "A", "s", "NM", 5, 2, "Active", "r", "img", ""⟩], [], []⟩
    (some "k2")
    [⟨some "X", none, some "B", none, some "NM", some 3, some 4,
      some "Active", none, some "img2", none⟩]
    (fun _ _ => none) (fun _ => "G") "t" "S2"
    ⟨"ShopB", "b@x", "loc", "k2", "t0", "active"⟩ rfl
    (by
      intro l hl hs inc hinc hne
      rcases List.mem_singleton.mp hl with rfl
      rcases List.mem_singleton.mp hinc with rfl
      decide)
    (by
      intro l hl hs n
      rcases List.mem_singleton.mp hl with rfl
      show ("G" : String) ≠ "Y"
      decide)

/-! ## Checkout machinery -/

/-- All order items of a seller_orders grouping, in group order: the items
the mark-as-sold loops of checkout iterate over. -/
def flatten_groups (g : List (String × List OrderItem)) : List OrderItem :=
  (g.map Prod.snd).flatten

/-- The snapshot produced for one cart item, none when its listing is gone. -/
def snap_of (ls : List Listing) (it : CartItem) : Option OrderItem :=
  (find_listing ls it.listing_id).map (fun l => snapshot_item l it.quantity)

/-- The order items checkout derives for one seller: the snapshots of the
cart items whose listing exists and belongs to that seller, in cart order. -/
def seller_items (ls : List Listing) (items : List CartItem) (sid : String) :
    List OrderItem :=
  items.filterMap (fun it =>
    match find_listing ls it.listing_id with
    | some l => if l.seller_id = sid then some (snapshot_item l it.quantity)
                else none
    | none => none)

theorem find_listing_id (ls : List Listing) (lid : String) (l : Listing)
    (h : find_listing ls lid = some l) : l.id = lid := by
  induction ls with
  | nil => exact Option.noConfusion h
  | cons a as ih =>
      unfold find_listing at h
      by_cases ha : a.id = lid
      · rw [if_pos ha] at h
        cases h
        exact ha
      · rw [if_neg ha] at h
        exact ih h

theorem find_listing_of_nodup (ls : List Listing)
    (hnd : (ls.map Listing.id).Nodup) (l : Listing) (h : l ∈ ls) :
    find_listing ls l.id = some l := by
  induction ls with
  | nil => exact absurd h (List.not_mem_nil l)
  | cons a as ih =>
      rw [List.map_cons, List.nodup_cons] at hnd
      rcases List.mem_cons.mp h with rfl | h2
      · unfold find_listing
        rw [if_pos rfl]
      · unfold find_listing
        have hne : a.id ≠ l.id := by
          intro heq
          exact hnd.1 (heq ▸ List.mem_map_of_mem Listing.id h2)
        rw [if_neg hne]
        exact ih hnd.2 h2

theorem alookup_append {α : Type} (A B : List (String × α)) (k : String) :
    alookup (A ++ B) k = (alookup A k).orElse (fun _ => alookup B k) := by
  induction A with
  | nil => rfl
  | cons p rest ih =>
      rw [List.cons_append]
      show (if p.1 = k then some p.2 else alookup (rest ++ B) k)
          = (if p.1 = k then some p.2 else alookup rest k).orElse
              (fun _ => alookup B k)
      by_cases hp : p.1 = k
      · rw [if_pos hp, if_pos hp]
        rfl
      · rw [if_neg hp, if_neg hp]
        exact ih

theorem alookup_eq_none_iff {α : Type} (m : List (String × α)) (k : String) :
    alookup m k = none ↔ k ∉ m.map Prod.fst := by
  induction m with
  | nil => simp [alookup]
  | cons p rest ih =>
      show (if p.1 = k then some p.2 else alookup rest k) = none ↔ _
      rw [List.map_cons, List.mem_cons]
      by_cases hp : p.1 = k
      · rw [if_pos hp]
        simp [hp]
      · rw [if_neg hp]
        rw [ih]
        constructor
        · intro h hk
          rcases hk with hk | hk
          · exact hp hk.symm
          · exact h hk
        · intro h hk
          exact h (Or.inr hk)

theorem alookup_mem {α : Type} (m : List (String × α)) (k : String) (v : α)
    (h : alookup m k = some v) : (k, v) ∈ m := by
  induction m with
  | nil => exact Option.noConfusion h
  | cons p rest ih =>
      have h2 : (if p.1 = k then some p.2 else alookup rest k) = some v := h
      by_cases hp : p.1 = k
      · rw [if_pos hp] at h2
        cases h2
        rw [← hp, Prod.mk.eta]
        exact List.mem_cons_self p rest
      · rw [if_neg hp] at h2
        exact List.mem_cons_of_mem p (ih h2)

theorem alookup_of_mem_nodup {α : Type} (m : List (String × α)) (k : String)
    (v : α) (hnd : (m.map Prod.fst).Nodup) (h : (k, v) ∈ m) :
    alookup m k = some v := by
  induction m with
  | nil => exact absurd h (List.not_mem_nil (k, v))
  | cons p rest ih =>
      rw [List.map_cons, List.nodup_cons] at hnd
      rcases List.mem_cons.mp h with heq | h2
      · rw [← heq]
        show (if k = k then some v else alookup rest k) = some v
        rw [if_pos rfl]
      · have hne : p.1 ≠ k := by
          intro hk
          exact hnd.1 (hk ▸ (List.mem_map_of_mem Prod.fst h2 : (k, v).1 ∈ _))
        show (if p.1 = k then some p.2 else alookup rest k) = some v
        rw [if_neg hne]
        exact ih hnd.2 h2

theorem aupsert_of_lookup {α : Type} (m : List (String × α)) (k : String)
    (v0 : α) (h : alookup m k = some v0) (v : α) :
    ∃ A B, m = A ++ (k, v0) :: B ∧ aupsert m k v = A ++ (k, v) :: B := by
  induction m with
  | nil => exact Option.noConfusion h
  | cons p rest ih =>
      have h2 : (if p.1 = k then some p.2 else alookup rest k) = some v0 := h
      by_cases hp : p.1 = k
      · rw [if_pos hp] at h2
        refine ⟨[], rest, ?_, ?_⟩
        · rw [List.nil_append]
          have : p = (k, v0) := by
            rw [← hp]
            cases h2
            rw [Prod.mk.eta]
          rw [this]
        · rw [List.nil_append]
          rw [← Prod.mk.eta (p := p)]
          show (if p.1 = k then (p.1, v) :: rest else _) = (k, v) :: rest
          rw [if_pos hp, hp]
      · rw [if_neg hp] at h2
        obtain ⟨A, B, hm, hu⟩ := ih h2
        refine ⟨p :: A, B, by rw [hm, List.cons_append], ?_⟩
        rw [← Prod.mk.eta (p := p)]
        show (if p.1 = k then (p.1, v) :: rest else (p.1, p.2) :: aupsert rest k v)
            = ((p.1, p.2) :: A) ++ (k, v) :: B
        rw [if_neg hp, List.cons_append, hu]

/-- One grouping iteration appends (as a multiset) the item's snapshot, when
its listing exists, to the flattened groups. -/
theorem group_step_flatten (ls : List Listing)
    (groups : List (String × List OrderItem)) (item : CartItem) :
    (flatten_groups (group_step ls groups item)).Perm
      (flatten_groups groups ++ (snap_of ls item).toList) := by
  unfold group_step snap_of
  cases hf : find_listing ls item.listing_id with
  | none =>
      show (flatten_groups groups).Perm
        (flatten_groups groups ++ ([] : List OrderItem))
      rw [List.append_nil]
  | some l =>
      show (flatten_groups
          (match alookup groups l.seller_id with
           | some existing => aupsert groups l.seller_id
               (existing ++ [snapshot_item l item.quantity])
           | none =>
               groups ++ [(l.seller_id, [snapshot_item l item.quantity])])).Perm
        (flatten_groups groups ++ [snapshot_item l item.quantity])
      cases hg : alookup groups l.seller_id with
      | none =>
          have heq : flatten_groups
              (groups ++ [(l.seller_id, [snapshot_item l item.quantity])])
              = flatten_groups groups ++ [snapshot_item l item.quantity] := by
            unfold flatten_groups
            rw [List.map_append, List.flatten_append]
            rfl
          show (flatten_groups
              (groups ++ [(l.seller_id, [snapshot_item l item.quantity])])).Perm
            (flatten_groups groups ++ [snapshot_item l item.quantity])
          rw [heq]
      | some ex =>
          show (flatten_groups (aupsert groups l.seller_id
              (ex ++ [snapshot_item l item.quantity]))).Perm
            (flatten_groups groups ++ [snapshot_item l item.quantity])
          obtain ⟨A, B, hm, hu⟩ := aupsert_of_lookup groups l.seller_id ex hg
            (ex ++ [snapshot_item l item.quantity])
          rw [hu, hm]
          unfold flatten_groups
          rw [List.map_append, List.map_cons, List.flatten_append,
            List.flatten_cons, List.map_append, List.map_cons,
            List.flatten_append, List.flatten_cons]
          simp only [List.append_assoc]
          exact List.Perm.append_left _ (List.Perm.append_left ex
            (List.perm_append_comm))

/-- The flattened seller_orders grouping is a permutation of the snapshots of
the cart items whose listing exists, in cart order. -/
theorem group_fold_flatten (ls : List Listing) (items : List CartItem) :
    ∀ groups : List (String × List OrderItem),
      (flatten_groups (items.foldl (group_step ls) groups)).Perm
        (flatten_groups groups ++ items.filterMap (snap_of ls)) := by
  induction items with
  | nil =>
      intro groups
      rw [List.filterMap_nil, List.append_nil]
      exact List.Perm.refl _
  | cons it its ih =>
      intro groups
      rw [List.foldl_cons]
      refine List.Perm.trans (ih (group_step ls groups it)) ?_
      refine List.Perm.trans
        (List.Perm.append_right _ (group_step_flatten ls groups it)) ?_
      rw [List.append_assoc]
      refine List.Perm.append_left _ ?_
      rw [List.filterMap_cons]
      cases hf : snap_of ls it with
      | none => exact List.Perm.refl _
      | some o => exact List.Perm.refl _

theorem dec_one_id (it : OrderItem) (l : Listing) : (dec_one it l).id = l.id := by
  unfold dec_one apply_purchase
  by_cases h : (l.id == it.listing_id) = true
  · rw [if_pos h]
  · rw [if_neg h]

theorem dec_fold_id (its : List OrderItem) :
    ∀ l : Listing, (its.foldl (fun x it => dec_one it x) l).id = l.id := by
  induction its with
  | nil => intro l; rfl
  | cons it its ih =>
      intro l
      rw [List.foldl_cons]
      rw [ih (dec_one it l), dec_one_id]

theorem decrement_eq_map (its : List OrderItem) :
    ∀ ls : List Listing, decrement_listings ls its
      = ls.map (fun l => its.foldl (fun x it => dec_one it x) l) := by
  induction its with
  | nil =>
      intro ls
      show ls = ls.map (fun l => l)
      rw [List.map_id']
  | cons it its ih =>
      intro ls
      show decrement_listings (ls.map (dec_one it)) its = _
      rw [ih (ls.map (dec_one it)), List.map_map]
      rfl

theorem dec_fold_of_no_match (its : List OrderItem) :
    ∀ l : Listing, (∀ it ∈ its, it.listing_id ≠ l.id) →
      its.foldl (fun x it => dec_one it x) l = l := by
  induction its with
  | nil => intro l _; rfl
  | cons it its ih =>
      intro l h
      rw [List.foldl_cons]
      have h1 : dec_one it l = l := by
        unfold dec_one
        have hne : ¬ ((l.id == it.listing_id) = true) := by
          simp only [beq_iff_eq]
          exact fun heq => h it (List.mem_cons_self it its) heq.symm
        rw [if_neg hne]
      rw [h1]
      exact ih l (fun x hx => h x (List.mem_cons_of_mem it hx))

theorem dec_fold_split (A B : List OrderItem) (it : OrderItem) (l : Listing)
    (hit : it.listing_id = l.id)
    (hA : ∀ a ∈ A, a.listing_id ≠ l.id) (hB : ∀ b ∈ B, b.listing_id ≠ l.id) :
    (A ++ it :: B).foldl (fun x it2 => dec_one it2 x) l
      = apply_purchase l it.quantity := by
  rw [List.foldl_append, dec_fold_of_no_match A l hA, List.foldl_cons]
  have h1 : dec_one it l = apply_purchase l it.quantity := by
    unfold dec_one
    rw [if_pos (beq_iff_eq.mpr hit.symm)]
  rw [h1]
  refine dec_fold_of_no_match B _ ?_
  intro b hb
  show b.listing_id ≠ (apply_purchase l it.quantity).id
  have : (apply_purchase l it.quantity).id = l.id := rfl
  rw [this]
  exact hB b hb

theorem countP_one_split {α : Type} (p : α → Bool) (xs : List α)
    (h : xs.countP p = 1) :
    ∃ A x B, xs = A ++ x :: B ∧ p x = true ∧
      (∀ a ∈ A, p a = false) ∧ (∀ b ∈ B, p b = false) := by
  induction xs with
  | nil => rw [List.countP_nil] at h; exact absurd h (by decide)
  | cons a as ih =>
      rw [List.countP_cons] at h
      by_cases hp : p a = true
      · rw [if_pos hp] at h
        have has : as.countP p = 0 := by omega
        refine ⟨[], a, as, rfl, hp, fun x hx => absurd hx (List.not_mem_nil x),
          fun b hb => ?_⟩
        have hnb := List.countP_eq_zero.mp has b hb
        cases hpb : p b
        · rfl
        · exact absurd hpb hnb
      · rw [if_neg hp] at h
        rw [Nat.add_zero] at h
        obtain ⟨A, x, B, hxs, hx, hA, hB⟩ := ih h
        refine ⟨a :: A, x, B, by rw [hxs, List.cons_append], hx, ?_, hB⟩
        intro y hy
        rcases List.mem_cons.mp hy with rfl | hy2
        · cases hpy : p y
          · rfl
          · exact absurd hpy hp
        · exact hA y hy2

theorem countP_filterMap {α β : Type} (f : α → Option β) (p : β → Bool)
    (xs : List α) :
    (xs.filterMap f).countP p
      = xs.countP (fun a => ((f a).map p).getD false) := by
  induction xs with
  | nil => rfl
  | cons a as ih =>
      rw [List.filterMap_cons, List.countP_cons]
      cases hf : f a with
      | none =>
          rw [ih]
          have : (((none : Option β)).map p).getD false = false := rfl
          rw [this]
          rw [if_neg (by decide)]
          rfl
      | some b =>
          rw [List.countP_cons, ih]
          have : ((some b).map p).getD false = p b := rfl
          rw [this]

theorem nodup_countP_le_one {α β : Type} [BEq β] [LawfulBEq β] (g : α → β)
    (c : β) (xs : List α) (hnd : (xs.map g).Nodup) :
    xs.countP (fun x => g x == c) ≤ 1 := by
  induction xs with
  | nil => rw [List.countP_nil]; omega
  | cons a as ih =>
      rw [List.map_cons, List.nodup_cons] at hnd
      rw [List.countP_cons]
      by_cases ha : (g a == c) = true
      · rw [if_pos ha]
        have hc : g a = c := eq_of_beq ha
        have hz : as.countP (fun x => g x == c) = 0 := by
          rw [List.countP_eq_zero]
          intro x hx hbeq
          exact hnd.1 (by
            rw [hc, ← eq_of_beq hbeq]
            exact List.mem_map_of_mem g hx)
        omega
      · rw [if_neg ha]
        have := ih hnd.2
        omega

theorem decrement_append (ls : List Listing) (F1 F2 : List OrderItem) :
    decrement_listings ls (F1 ++ F2)
      = decrement_listings (decrement_listings ls F1) F2 := by
  unfold decrement_listings
  rw [List.foldl_append]

/-- The orders and listings components of the per-seller checkout loop. -/
theorem checkout_loop_components (body : CheckoutBody) (gen : Nat → String)
    (now : String) (ps : List (Nat × String × List OrderItem)) :
    ∀ acc : List Order × List Listing × List String,
      (ps.foldl (checkout_loop body gen now) acc).1
        = acc.1 ++ ps.map (fun p => make_order (gen p.1) p.2.1 body now p.2.2) ∧
      (ps.foldl (checkout_loop body gen now) acc).2.1
        = decrement_listings acc.2.1 ((ps.map (fun p => p.2.2)).flatten) := by
  induction ps with
  | nil =>
      intro acc
      constructor
      · rw [List.map_nil, List.append_nil]
        rfl
      · rfl
  | cons p ps ih =>
      intro acc
      rw [List.foldl_cons]
      obtain ⟨ih1, ih2⟩ := ih (checkout_loop body gen now acc p)
      constructor
      · rw [ih1]
        show (acc.1 ++ [make_order (gen p.1) p.2.1 body now p.2.2]) ++ _ = _
        rw [List.append_assoc, List.map_cons, List.singleton_append]
      · rw [ih2]
        show decrement_listings (decrement_listings acc.2.1 p.2.2) _ = _
        rw [List.map_cons, List.flatten_cons, decrement_append]

/-- The full effect of a successful checkout on listings and orders: the cart
resolves to items, orders are created per seller group and every purchased
listing is decremented by the flattened group items. -/
theorem checkout_success (st : MarketState) (cookie : Option String)
    (newId : String) (body : CheckoutBody) (gen : Nat → String) (now : String)
    (items : List CartItem)
    (hcid : cookie.getD "" ≠ "")
    (hlook : alookup st.carts (cookie.getD "") = some items)
    (hne : items ≠ [])
    (hemail : body.email.getD "" ≠ "") (hname : body.name.getD "" ≠ "") :
    (checkout st cookie newId body gen now).1.listings
      = decrement_listings st.listings
          (flatten_groups (group_items st.listings items)) ∧
    (checkout st cookie newId body gen now).1.orders
      = st.orders ++ (group_items st.listings items).enum.map
          (fun p => make_order (gen p.1) p.2.1 body now p.2.2) ∧
    (checkout st cookie newId body gen now).2.code = 200 := by
  have hr : get_or_create_cart_id st.carts cookie newId
      = (cookie.getD "", st.carts) := by
    simp only [get_or_create_cart_id]
    rw [if_pos]
    exact ⟨hcid, by rw [hlook]; rfl⟩
  have hck : checkout st cookie newId body gen now
      = ({ st with
            listings := ((group_items st.listings items).enum.foldl
              (checkout_loop body gen now) (st.orders, st.listings, [])).2.1,
            orders := ((group_items st.listings items).enum.foldl
              (checkout_loop body gen now) (st.orders, st.listings, [])).1,
            carts := aupsert st.carts (cookie.getD "") [] },
         ⟨200, ((group_items st.listings items).enum.foldl
            (checkout_loop body gen now) (st.orders, st.listings, [])).2.2⟩) := by
    unfold checkout
    rw [hr]
    dsimp only
    rw [hlook]
    rw [show (some items).getD ([] : List CartItem) = items from rfl]
    rw [if_neg hne, if_neg (fun hor => Or.elim hor hemail hname)]
  obtain ⟨ho, hl⟩ := checkout_loop_components body gen now
    (group_items st.listings items).enum (st.orders, st.listings, [])
  have hmapsnd : (group_items st.listings items).enum.map (fun p => p.2.2)
      = (group_items st.listings items).map Prod.snd := by
    have h2 : (group_items st.listings items).enum.map (fun p => p.2.2)
        = ((group_items st.listings items).enum.map Prod.snd).map Prod.snd := by
      rw [List.map_map]
      rfl
    rw [h2, List.enum_map_snd]
  refine ⟨?_, ?_, ?_⟩
  · rw [hck]
    show ((group_items st.listings items).enum.foldl
        (checkout_loop body gen now) (st.orders, st.listings, [])).2.1 = _
    rw [hl, hmapsnd]
    rfl
  · rw [hck]
    show ((group_items st.listings items).enum.foldl
        (checkout_loop body gen now) (st.orders, st.listings, [])).1 = _
    rw [ho]
  · rw [hck]

theorem find_listing_map (F : Listing → Listing) (hF : ∀ x, (F x).id = x.id)
    (ls : List Listing) (lid : String) :
    find_listing (ls.map F) lid = (find_listing ls lid).map F := by
  induction ls with
  | nil => rfl
  | cons a as ih =>
      rw [List.map_cons]
      show (if (F a).id = lid then some (F a) else find_listing (as.map F) lid)
          = (if a.id = lid then some a else find_listing as lid).map F
      by_cases ha : a.id = lid
      · rw [if_pos (by rw [hF a]; exact ha), if_pos ha]
        rfl
      · rw [if_neg (by rw [hF a]; exact ha), if_neg ha, ih]

theorem flat_countP (ls : List Listing) (items : List CartItem) (X : String) :
    (flatten_groups (group_items ls items)).countP (fun o => o.listing_id == X)
      = (items.filterMap (snap_of ls)).countP (fun o => o.listing_id == X) := by
  have hperm := group_fold_flatten ls items []
  rw [show flatten_groups ([] : List (String × List OrderItem)) = [] from rfl,
    List.nil_append] at hperm
  exact List.Perm.countP_eq _ hperm

theorem snap_listing_id (ls : List Listing) (it : CartItem) (o : OrderItem)
    (h : snap_of ls it = some o) : o.listing_id = it.listing_id := by
  unfold snap_of at h
  cases hf : find_listing ls it.listing_id with
  | none =>
      rw [hf] at h
      exact Option.noConfusion h
  | some l =>
      rw [hf] at h
      have h2 : some (snapshot_item l it.quantity) = some o := h
      cases h2
      exact find_listing_id ls it.listing_id l hf

theorem snaps_countP_eq_one (ls : List Listing) (items : List CartItem)
    (item : CartItem) (hitem : item ∈ items)
    (hnd : (items.map CartItem.listing_id).Nodup)
    (hfound : (find_listing ls item.listing_id).isSome = true) :
    (items.filterMap (snap_of ls)).countP
      (fun o => o.listing_id == item.listing_id) = 1 := by
  rw [countP_filterMap]
  obtain ⟨I1, I2, hsplit⟩ := List.append_of_mem hitem
  subst hsplit
  rw [List.countP_append, List.countP_cons]
  rw [List.map_append, List.map_cons, List.nodup_append] at hnd
  obtain ⟨h1, h2, hdisj⟩ := hnd
  rw [List.nodup_cons] at h2
  have hX1 : item.listing_id ∉ I1.map CartItem.listing_id := fun hmem =>
    hdisj hmem (List.mem_cons_self _ _)
  have hX2 : item.listing_id ∉ I2.map CartItem.listing_id := h2.1
  have hzero : ∀ (I : List CartItem),
      item.listing_id ∉ I.map CartItem.listing_id →
      I.countP (fun it2 => ((snap_of ls it2).map
        (fun o => o.listing_id == item.listing_id)).getD false) = 0 := by
    intro I hX
    rw [List.countP_eq_zero]
    intro it2 hit2
    cases hs : snap_of ls it2 with
    | none => exact fun h => Bool.noConfusion h
    | some o =>
        intro htrue
        have ho : o.listing_id = item.listing_id :=
          eq_of_beq (show (o.listing_id == item.listing_id) = true from htrue)
        have hlid : it2.listing_id = item.listing_id := by
          rw [← snap_listing_id ls it2 o hs]
          exact ho
        exact hX (hlid ▸ List.mem_map_of_mem CartItem.listing_id hit2)
  have hcItem : ((snap_of ls item).map
      (fun o => o.listing_id == item.listing_id)).getD false = true := by
    cases hs : snap_of ls item with
    | none =>
        exfalso
        unfold snap_of at hs
        cases hf : find_listing ls item.listing_id with
        | none => rw [hf] at hfound; exact Bool.noConfusion hfound
        | some l => rw [hf] at hs; exact Option.noConfusion hs
    | some o =>
        have ho := snap_listing_id ls item o hs
        show ((some o).map (fun o => o.listing_id == item.listing_id)).getD false
            = true
        show (o.listing_id == item.listing_id) = true
        exact beq_iff_eq.mpr ho
  rw [hzero I1 hX1, hzero I2 hX2, if_pos hcItem]

theorem dec_fold_value (ls : List Listing) (items : List CartItem)
    (item : CartItem) (l : Listing)
    (hnditems : (items.map CartItem.listing_id).Nodup)
    (hitem : item ∈ items)
    (hfind : find_listing ls item.listing_id = some l)
    (hlid : l.id = item.listing_id) :
    (flatten_groups (group_items ls items)).foldl (fun x it => dec_one it x) l
      = apply_purchase l item.quantity := by
  have hcount : (flatten_groups (group_items ls items)).countP
      (fun o => o.listing_id == item.listing_id) = 1 := by
    rw [flat_countP]
    exact snaps_countP_eq_one ls items item hitem hnditems (by rw [hfind]; rfl)
  obtain ⟨A, x, B, hsplit, hx, hA, hB⟩ := countP_one_split _ _ hcount
  have hsnapmem : snapshot_item l item.quantity
      ∈ flatten_groups (group_items ls items) := by
    have hperm := group_fold_flatten ls items []
    rw [show flatten_groups ([] : List (String × List OrderItem)) = [] from rfl,
      List.nil_append] at hperm
    refine hperm.mem_iff.mpr ?_
    exact List.mem_filterMap.mpr ⟨item, hitem, by unfold snap_of; rw [hfind]; rfl⟩
  have hptrue : ((snapshot_item l item.quantity).listing_id == item.listing_id)
      = true := by
    show (l.id == item.listing_id) = true
    exact beq_iff_eq.mpr hlid
  have hxeq : x = snapshot_item l item.quantity := by
    rw [hsplit] at hsnapmem
    rcases List.mem_append.mp hsnapmem with hm | hm
    · exact absurd hptrue (by rw [hA _ hm]; decide)
    · rcases List.mem_cons.mp hm with hm2 | hm2
      · exact hm2.symm
      · exact absurd hptrue (by rw [hB _ hm2]; decide)
  rw [hsplit, hxeq]
  have happly := dec_fold_split A B (snapshot_item l item.quantity) l rfl
    (fun a ha => by
      have := hA a ha
      rw [beq_eq_false_iff_ne] at this
      rw [hlid]
      exact this)
    (fun b hb => by
      have := hB b hb
      rw [beq_eq_false_iff_ne] at this
      rw [hlid]
      exact this)
  rw [hxeq] at hsplit
  exact happly

/-- C1: a successful checkout (non-empty cart, buyer name and email present)
decrements each purchased listing's quantity by its cart item's quantity and
flips the status to Sold exactly when the new quantity reaches (or falls
below) zero; and no listing with status Sold is ever returned by
GET /api/listings. -/
theorem claim_C1 (st : MarketState) (cookie : Option String) (newId : String)
    (body : CheckoutBody) (gen : Nat → String) (now : String)
    (items : List CartItem) (item : CartItem) (l : Listing)
    (hcid : cookie.getD "" ≠ "")
    (hlook : alookup st.carts (cookie.getD "") = some items)
    (hne : items ≠ [])
    (hemail : body.email.getD "" ≠ "") (hname : body.name.getD "" ≠ "")
    (hnditems : (items.map CartItem.listing_id).Nodup)
    (hndids : (st.listings.map Listing.id).Nodup)
    (hitem : item ∈ items) (hl : l ∈ st.listings)
    (hid : l.id = item.listing_id) :
    (find_listing (checkout st cookie newId body gen now).1.listings
        item.listing_id).map (fun x => (x.quantity, x.status))
      = some (l.quantity - item.quantity,
          if l.quantity - item.quantity ≤ 0 then "Sold" else l.status) ∧
    (∀ (ls : List Listing) (q : ListingQuery)
        (scry : String → String → Option ScryData) (x : Listing),
      x ∈ (get_listings ls q scry).listings → x.status ≠ "Sold") := by
  have hfind : find_listing st.listings item.listing_id = some l := by
    rw [← hid]
    exact find_listing_of_nodup st.listings hndids l hl
  obtain ⟨hL, _, _⟩ := checkout_success st cookie newId body gen now items
    hcid hlook hne hemail hname
  constructor
  · rw [hL, decrement_eq_map]
    rw [find_listing_map _ (fun x => dec_fold_id _ x) st.listings item.listing_id]
    rw [hfind]
    show some ((fun x => (x.quantity, x.status))
        ((flatten_groups (group_items st.listings items)).foldl
          (fun x it => dec_one it x) l)) = _
    rw [dec_fold_value st.listings items item l hnditems hitem hfind hid]
    rfl
  · intro ls q scry x hx
    obtain ⟨l0, _, hx2, hact, _⟩ := get_listings_src ls q scry x hx
    rw [hx2, (enrich_listing_fields scry l0).1, hact]
    decide

/-- Witness for C1: a cart buying one of the single remaining copy of L1;
after checkout the listing's quantity is 0 and its status Sold. -/
theorem claim_C1_witness :
    (find_listing (checkout
        ⟨[("S1", ⟨"Shop", "e@x", "loc", "nxs_k1", "t0", "active"⟩)],
         [⟨"L1", "S1", "Alpha", "abc", "NM", 2, 1, "Active", "r", "img", ""⟩],
         [], [("A", [⟨"L1", 1⟩])]⟩
        (some "A") "N" ⟨some "b@x", some "Bob", none⟩ (fun _ => "ORD1")
        "t").1.listings "L1").map (fun x => (x.quantity, x.status))
      = some ((0 : Int), "Sold") :=
  (claim_C1
    ⟨[("S1", ⟨"Shop", "e@x", "loc", "nxs_k1", "t0", "active"⟩)],
     [⟨"L1", "S1", "Alpha", "abc", "NM", 2, 1, "Active", "r", "img", ""⟩],
     [], [("A", [⟨"L1", 1⟩])]⟩
    (some "A") "N" ⟨some "b@x", some "Bob", none⟩ (fun _ => "ORD1") "t"
    [⟨"L1", 1⟩] ⟨"L1", 1⟩
    ⟨"L1", "S1", "Alpha", "abc", "NM", 2, 1, "Active", "r", "img", ""⟩
    (by decide) (by decide) (by decide) (by decide) (by decide) (by decide)
    (by decide) (by decide) (by decide) rfl).1

theorem aupsert_keys_of_lookup {α : Type} (m : List (String × α)) (k : String)
    (v0 v : α) (h : alookup m k = some v0) :
    (aupsert m k v).map Prod.fst = m.map Prod.fst := by
  obtain ⟨A, B, hm, hu⟩ := aupsert_of_lookup m k v0 h v
  rw [hu, hm, List.map_append, List.map_append, List.map_cons, List.map_cons]

theorem group_step_keys (ls : List Listing)
    (groups : List (String × List OrderItem)) (item : CartItem)
    (hnd : (groups.map Prod.fst).Nodup) :
    ((group_step ls groups item).map Prod.fst).Nodup := by
  unfold group_step
  cases hf : find_listing ls item.listing_id with
  | none => exact hnd
  | some l =>
      show ((match alookup groups l.seller_id with
             | some existing => aupsert groups l.seller_id
                 (existing ++ [snapshot_item l item.quantity])
             | none =>
                 groups ++ [(l.seller_id, [snapshot_item l item.quantity])]).map
          Prod.fst).Nodup
      cases hg : alookup groups l.seller_id with
      | some ex =>
          show ((aupsert groups l.seller_id
              (ex ++ [snapshot_item l item.quantity])).map Prod.fst).Nodup
          rw [aupsert_keys_of_lookup groups l.seller_id ex _ hg]
          exact hnd
      | none =>
          show ((groups ++ [(l.seller_id, [snapshot_item l item.quantity])]).map
              Prod.fst).Nodup
          rw [List.map_append, List.nodup_append]
          refine ⟨hnd, List.nodup_singleton _, ?_⟩
          intro a ha hb
          rcases List.mem_singleton.mp hb with rfl
          exact (alookup_eq_none_iff groups l.seller_id).mp hg ha

theorem group_fold_keys (ls : List Listing) (items : List CartItem) :
    ∀ groups : List (String × List OrderItem), (groups.map Prod.fst).Nodup →
      (((items.foldl (group_step ls) groups)).map Prod.fst).Nodup := by
  induction items with
  | nil => exact fun groups h => h
  | cons it its ih =>
      intro groups h
      rw [List.foldl_cons]
      exact ih (group_step ls groups it) (group_step_keys ls groups it h)

/-- The group of a seller after the grouping loop: the previous group
extended by the seller's snapshots from the processed items. -/
theorem group_fold_lookup (ls : List Listing) (items : List CartItem) :
    ∀ (groups : List (String × List OrderItem)) (sid : String),
      alookup (items.foldl (group_step ls) groups) sid
        = match alookup groups sid with
          | some ex => some (ex ++ seller_items ls items sid)
          | none =>
              match seller_items ls items sid with
              | [] => none
              | x :: xs => some (x :: xs) := by
  induction items with
  | nil =>
      intro groups sid
      cases halook : alookup groups sid with
      | some ex =>
          show alookup groups sid = some (ex ++ seller_items ls [] sid)
          rw [halook, show seller_items ls [] sid = [] from rfl, List.append_nil]
      | none =>
          show alookup groups sid = none
          exact halook
  | cons it its ih =>
      intro groups sid
      rw [List.foldl_cons]
      cases hf : find_listing ls it.listing_id with
      | none =>
          have hstep : group_step ls groups it = groups := by
            unfold group_step
            rw [hf]
          have hsi : seller_items ls (it :: its) sid = seller_items ls its sid := by
            unfold seller_items
            rw [List.filterMap_cons]
            simp only [hf]
          rw [hstep, hsi]
          exact ih groups sid
      | some l =>
          have hstep : group_step ls groups it
              = (match alookup groups l.seller_id with
                 | some ex => aupsert groups l.seller_id
                     (ex ++ [snapshot_item l it.quantity])
                 | none =>
                     groups ++ [(l.seller_id, [snapshot_item l it.quantity])]) := by
            unfold group_step
            rw [hf]
          by_cases hkey : l.seller_id = sid
          · have hsi : seller_items ls (it :: its) sid
                = snapshot_item l it.quantity :: seller_items ls its sid := by
              unfold seller_items
              rw [List.filterMap_cons]
              simp only [hf, if_pos hkey]
            rw [hsi]
            cases halook : alookup groups sid with
            | some ex =>
                have hgl : alookup groups l.seller_id = some ex := by
                  rw [hkey]; exact halook
                have hstep2 : group_step ls groups it
                    = aupsert groups l.seller_id
                        (ex ++ [snapshot_item l it.quantity]) := by
                  rw [hstep, hgl]
                rw [hstep2, ih]
                have hlook2 : alookup (aupsert groups l.seller_id
                    (ex ++ [snapshot_item l it.quantity])) sid
                    = some (ex ++ [snapshot_item l it.quantity]) := by
                  rw [hkey]
                  exact alookup_aupsert_self groups sid _
                rw [hlook2]
                show some ((ex ++ [snapshot_item l it.quantity])
                    ++ seller_items ls its sid) = _
                rw [List.append_assoc, List.singleton_append]
            | none =>
                have hgl : alookup groups l.seller_id = none := by
                  rw [hkey]; exact halook
                have hstep2 : group_step ls groups it
                    = groups ++ [(l.seller_id, [snapshot_item l it.quantity])] := by
                  rw [hstep, hgl]
                rw [hstep2, ih]
                have hlook2 : alookup
                    (groups ++ [(l.seller_id, [snapshot_item l it.quantity])]) sid
                    = some [snapshot_item l it.quantity] := by
                  rw [alookup_append, halook]
                  show alookup [(l.seller_id, [snapshot_item l it.quantity])] sid
                      = _
                  show (if l.seller_id = sid
                        then some [snapshot_item l it.quantity] else alookup [] sid)
                      = _
                  rw [if_pos hkey]
                rw [hlook2]
                rfl
          · have hsi : seller_items ls (it :: its) sid = seller_items ls its sid := by
              unfold seller_items
              rw [List.filterMap_cons]
              simp only [hf, if_neg hkey]
            rw [hsi]
            have hstep3 : alookup (group_step ls groups it) sid
                = alookup groups sid := by
              rw [hstep]
              cases hg : alookup groups l.seller_id with
              | some ex =>
                  show alookup (aupsert groups l.seller_id
                      (ex ++ [snapshot_item l it.quantity])) sid = _
                  exact alookup_aupsert_ne groups l.seller_id sid _
                    (fun h => hkey h.symm)
              | none =>
                  show alookup
                      (groups ++ [(l.seller_id, [snapshot_item l it.quantity])])
                      sid = _
                  rw [alookup_append]
                  have hone : alookup
                      [(l.seller_id, [snapshot_item l it.quantity])] sid = none := by
                    show (if l.seller_id = sid
                          then some [snapshot_item l it.quantity]
                          else alookup [] sid) = none
                    rw [if_neg hkey]
                    rfl
                  cases hgs : alookup groups sid with
                  | some v => rfl
                  | none =>
                      show alookup
                          [(l.seller_id, [snapshot_item l it.quantity])] sid = none
                      exact hone
            rw [ih, hstep3]

theorem seller_items_ne_nil_iff (ls : List Listing) (items : List CartItem)
    (sid : String) :
    seller_items ls items sid ≠ [] ↔
      ∃ it ∈ items, ∃ l, find_listing ls it.listing_id = some l ∧
        l.seller_id = sid := by
  unfold seller_items
  rw [ne_eq, List.filterMap_eq_nil_iff]
  push_neg
  constructor
  · rintro ⟨it, hit, hne⟩
    refine ⟨it, hit, ?_⟩
    cases hf : find_listing ls it.listing_id with
    | none =>
        exfalso
        apply hne
        simp only [hf]
    | some l =>
        by_cases hsid : l.seller_id = sid
        · exact ⟨l, rfl, hsid⟩
        · exfalso
          apply hne
          simp only [hf, if_neg hsid]
  · rintro ⟨it, hit, l, hf, hsid⟩
    refine ⟨it, hit, ?_⟩
    simp only [hf, if_pos hsid]
    exact fun h => Option.noConfusion h

/-- C8: a successful checkout creates, after the pre-existing orders, exactly
one order per distinct seller represented among the cart's resolvable
listings; each order's item list is the snapshot of that seller's purchased
listings' fields and quantities, and each order's total is the rounded sum of
price times quantity over its items. -/
theorem claim_C8 (st : MarketState) (cookie : Option String) (newId : String)
    (body : CheckoutBody) (gen : Nat → String) (now : String)
    (items : List CartItem)
    (hcid : cookie.getD "" ≠ "")
    (hlook : alookup st.carts (cookie.getD "") = some items)
    (hne : items ≠ [])
    (hemail : body.email.getD "" ≠ "") (hname : body.name.getD "" ≠ "") :
    (checkout st cookie newId body gen now).1.orders
      = st.orders ++ (group_items st.listings items).enum.map
          (fun p => make_order (gen p.1) p.2.1 body now p.2.2) ∧
    (((group_items st.listings items).enum.map
        (fun p => make_order (gen p.1) p.2.1 body now p.2.2)).map
      Order.seller_id).Nodup ∧
    (∀ sid, sid ∈ ((group_items st.listings items).enum.map
        (fun p => make_order (gen p.1) p.2.1 body now p.2.2)).map Order.seller_id
      ↔ ∃ it ∈ items, ∃ l, find_listing st.listings it.listing_id = some l ∧
          l.seller_id = sid) ∧
    (∀ o ∈ (group_items st.listings items).enum.map
        (fun p => make_order (gen p.1) p.2.1 body now p.2.2),
      o.items = seller_items st.listings items o.seller_id ∧
      o.total = round2 (order_sum o.items) ∧ o.status = "pending" ∧
      o.buyer_name = body.name.getD "" ∧ o.buyer_email = body.email.getD "") := by
  obtain ⟨_, hO, _⟩ := checkout_success st cookie newId body gen now items
    hcid hlook hne hemail hname
  have hkeys : (((group_items st.listings items)).map Prod.fst).Nodup :=
    group_fold_keys st.listings items [] (List.nodup_nil)
  have hmap : (((group_items st.listings items).enum.map
      (fun p => make_order (gen p.1) p.2.1 body now p.2.2)).map Order.seller_id)
      = (group_items st.listings items).map Prod.fst := by
    rw [List.map_map]
    have h1 : (Order.seller_id ∘ fun p : ℕ × String × List OrderItem =>
        make_order (gen p.1) p.2.1 body now p.2.2)
        = fun p : ℕ × String × List OrderItem => p.2.1 := rfl
    rw [h1]
    have h2 : (group_items st.listings items).enum.map
        (fun p : ℕ × String × List OrderItem => p.2.1)
        = ((group_items st.listings items).enum.map Prod.snd).map Prod.fst := by
      rw [List.map_map]
      rfl
    rw [h2, List.enum_map_snd]
  have hlookupG : ∀ sid, alookup (group_items st.listings items) sid
      = match seller_items st.listings items sid with
        | [] => none
        | x :: xs => some (x :: xs) := by
    intro sid
    have := group_fold_lookup st.listings items [] sid
    rw [show alookup ([] : List (String × List OrderItem)) sid = none from rfl]
      at this
    exact this
  refine ⟨hO, by rw [hmap]; exact hkeys, ?_, ?_⟩
  · intro sid
    rw [hmap, ← seller_items_ne_nil_iff st.listings items sid]
    constructor
    · intro hmem hsi
      have h2 := hlookupG sid
      rw [hsi] at h2
      exact (alookup_eq_none_iff _ sid).mp h2 hmem
    · intro hsi
      by_contra hmem
      have hnone := (alookup_eq_none_iff (group_items st.listings items) sid).mpr
        hmem
      cases hs : seller_items st.listings items sid with
      | nil => exact hsi hs
      | cons x xs =>
          have h2 := hlookupG sid
          rw [hs, hnone] at h2
          exact Option.noConfusion h2
  · intro o ho
    obtain ⟨p, hp, rfl⟩ := List.mem_map.mp ho
    have hmem2 : (p.2.1, p.2.2) ∈ group_items st.listings items := by
      have := mem_of_mem_enum hp
      rw [Prod.mk.eta]
      exact this
    have hlk : alookup (group_items st.listings items) p.2.1 = some p.2.2 :=
      alookup_of_mem_nodup _ _ _ hkeys hmem2
    have hitems : p.2.2 = seller_items st.listings items p.2.1 := by
      have h2 := hlookupG p.2.1
      rw [hlk] at h2
      cases hs : seller_items st.listings items p.2.1 with
      | nil =>
          rw [hs] at h2
          exact Option.noConfusion h2
      | cons x xs =>
          rw [hs] at h2
          rw [Option.some.injEq] at h2
          rw [h2]
    exact ⟨hitems, rfl, rfl, rfl, rfl⟩

/-- Witness for C8: a two-item cart over two sellers; the checkout's orders
are the old orders followed by the per-seller orders, with pairwise distinct
seller ids. -/
theorem claim_C8_witness :
    (checkout
        ⟨[("S1", ⟨"ShopA", "a@x", "loc", "k1", "t0", "active"⟩),
          ("S2", ⟨"ShopB", "b@x", "loc", "k2", "t0", "active"⟩)],
         [⟨"L1", "S1", "Alpha", "abc", "NM", 2, 3, "Active", "r", "img", ""⟩,
          ⟨"L2", "S2", "Beta", "abc", "NM", 4, 3, "Active", "r", "img", ""⟩],
         [], [("A", [⟨"L1", 1⟩, ⟨"L2", 2⟩])]⟩
        (some "A") "N" ⟨some "b@x", some "Bob", none⟩ (fun k => "ORD" ++ toString k)
        "t").1.orders
      = [] ++ (group_items
          [⟨"L1", "S1", "Alpha", "abc", "NM", 2, 3, "Active", "r", "img", ""⟩,
           ⟨"L2", "S2", "Beta", "abc", "NM", 4, 3, "Active", "r", "img", ""⟩]
          [⟨"L1", 1⟩, ⟨"L2", 2⟩]).enum.map
            (fun p => make_order ((fun k => "ORD" ++ toString k) p.1) p.2.1
              ⟨some "b@x", some "Bob", none⟩ "t" p.2.2) ∧
    (((group_items
        [⟨"L1", "S1", "Alpha", "abc", "NM", 2, 3, "Active", "r", "img", ""⟩,
         ⟨"L2", "S2", "Beta", "abc", "NM", 4, 3, "Active", "r", "img", ""⟩]
        [⟨"L1", 1⟩, ⟨"L2", 2⟩]).enum.map
          (fun p => make_order ((fun k => "ORD" ++ toString k) p.1) p.2.1
            ⟨some "b@x", some "Bob", none⟩ "t" p.2.2)).map
      Order.seller_id).Nodup := by
  have h := claim_C8
    ⟨[("S1", ⟨"ShopA", "a@x", "loc", "k1", "t0", "active"⟩),
      ("S2", ⟨"ShopB", "b@x", "loc", "k2", "t0", "active"⟩)],
     [⟨"L1", "S1", "Alpha", "abc", "NM", 2, 3, "Active", "r", "img", ""⟩,
      ⟨"L2", "S2", "Beta", "abc", "NM", 4, 3, "Active", "r", "img", ""⟩],
     [], [("A", [⟨"L1", 1⟩, ⟨"L2", 2⟩])]⟩
    (some "A") "N" ⟨some "b@x", some "Bob", none⟩ (fun k => "ORD" ++ toString k)
    "t" [⟨"L1", 1⟩, ⟨"L2", 2⟩]
    (by decide) (by decide) (by decide) (by decide) (by decide)
  exact ⟨h.1, h.2.1⟩

/-- C2 counterexample to the claim as stated: two carts each reserve the
single copy of L1 (each add passes the availability check); the first
checkout sells it out, and the second checkout, which never re-checks
availability or status, drives the quantity to -1. -/
theorem claim_C2_counterexample :
    (∀ l ∈ (⟨[("S1", ⟨"Shop", "e@x", "loc", "k1", "t0", "active"⟩)],
        [⟨"L1", "S1", "Alpha", "abc", "NM", 2, 1, "Active", "r", "img", ""⟩],
        [], []⟩ : MarketState).listings, 0 ≤ l.quantity) ∧
    ¬ (∀ l ∈ (apply_ops
        ⟨[("S1", ⟨"Shop", "e@x", "loc", "k1", "t0", "active"⟩)],
         [⟨"L1", "S1", "Alpha", "abc", "NM", 2, 1, "Active", "r", "img", ""⟩],
         [], []⟩
        [Op.add none "A" ⟨some "L1", some 1⟩,
         Op.add none "B" ⟨some "L1", some 1⟩,
         Op.checkout (some "A") "X" ⟨some "b@x", some "Bob", none⟩
           (fun _ => "O1") "t",
         Op.checkout (some "B") "Y" ⟨some "c@x", some "Cara", none⟩
           (fun _ => "O2") "t"]).listings, 0 ≤ l.quantity) := by
  constructor
  · decide
  · decide

theorem mem_aupsert {α : Type} (m : List (String × α)) (k : String) (v : α)
    (p : String × α) (h : p ∈ aupsert m k v) : p ∈ m ∨ p = (k, v) := by
  induction m with
  | nil => exact Or.inr (List.mem_singleton.mp h)
  | cons q rest ih =>
      rw [← Prod.mk.eta (p := q)] at h
      show p ∈ (q.1, q.2) :: rest ∨ _
      by_cases hq : q.1 = k
      · rw [show aupsert ((q.1, q.2) :: rest) k v
            = if q.1 = k then (q.1, v) :: rest else (q.1, q.2) :: aupsert rest k v
            from rfl, if_pos hq] at h
        rcases List.mem_cons.mp h with h2 | h2
        · exact Or.inr (by rw [h2, hq])
        · exact Or.inl (List.mem_cons_of_mem _ h2)
      · rw [show aupsert ((q.1, q.2) :: rest) k v
            = if q.1 = k then (q.1, v) :: rest else (q.1, q.2) :: aupsert rest k v
            from rfl, if_neg hq] at h
        rcases List.mem_cons.mp h with h2 | h2
        · exact Or.inl (by rw [h2]; exact List.mem_cons_self _ _)
        · rcases ih h2 with h3 | h3
          · exact Or.inl (List.mem_cons_of_mem _ h3)
          · exact Or.inr h3

theorem get_or_create_mem (carts : List (String × List CartItem))
    (cookie : Option String) (newId : String) (p : String × List CartItem)
    (hp : p ∈ (get_or_create_cart_id carts cookie newId).2) :
    p ∈ carts ∨ p.2 = [] := by
  unfold get_or_create_cart_id at hp
  by_cases hcond : cookie.getD "" ≠ "" ∧ (alookup carts (cookie.getD "")).isSome
  · rw [if_pos hcond] at hp
    exact Or.inl hp
  · rw [if_neg hcond] at hp
    rcases mem_aupsert _ _ _ p hp with h | h
    · exact Or.inl h
    · exact Or.inr (by rw [h])

theorem update_first_map_eq {α β : Type} (p : α → Bool) (f : α → α) (g : α → β)
    (hpres : ∀ x, g (f x) = g x) (xs : List α) :
    (update_first p f xs).map g = xs.map g := by
  induction xs with
  | nil => rfl
  | cons a as ih =>
      unfold update_first
      by_cases hp : p a = true
      · rw [if_pos hp, List.map_cons, List.map_cons, hpres]
      · rw [if_neg hp, List.map_cons, List.map_cons, ih]

theorem add_to_cart_listings (st : MarketState) (c : Option String) (n : String)
    (b : AddBody) : (add_to_cart st c n b).1.listings = st.listings := by
  unfold add_to_cart
  dsimp only
  by_cases h1 : b.listing_id.getD "" = ""
  · rw [if_pos h1]
  · rw [if_neg h1]
    cases find_active_listing st.listings (b.listing_id.getD "") with
    | none => rfl
    | some listing =>
        dsimp only
        cases ((alookup (get_or_create_cart_id st.carts c n).2
            (get_or_create_cart_id st.carts c n).1).getD []).find?
            (fun i => i.listing_id == b.listing_id.getD "") with
        | some existing =>
            dsimp only
            by_cases h2 : listing.quantity < existing.quantity + b.quantity.getD 1
            · rw [if_pos h2]
            · rw [if_neg h2]
        | none =>
            dsimp only
            by_cases h2 : listing.quantity < b.quantity.getD 1
            · rw [if_pos h2]
            · rw [if_neg h2]

theorem remove_from_cart_listings (st : MarketState) (c : Option String)
    (n : String) (b : RemoveBody) :
    (remove_from_cart st c n b).1.listings = st.listings := by
  unfold remove_from_cart
  dsimp only
  cases alookup (get_or_create_cart_id st.carts c n).2
      (get_or_create_cart_id st.carts c n).1 with
  | some items => rfl
  | none => rfl

theorem sync_listings_carts (st : MarketState) (sid : String)
    (m : Option String) (incoming : List IncomingListing)
    (scry : String → String → Option ScryData) (gen : Nat → String)
    (now : String) :
    (sync_listings st sid m incoming scry gen now).1.carts = st.carts := rfl

theorem resolved_items_fresh (carts : List (String × List CartItem))
    (c : Option String) (n : String)
    (hcond : ¬ (c.getD "" ≠ "" ∧ (alookup carts (c.getD "")).isSome)) :
    (alookup (get_or_create_cart_id carts c n).2
      (get_or_create_cart_id carts c n).1).getD [] = ([] : List CartItem) := by
  unfold get_or_create_cart_id
  rw [if_neg hcond]
  show (alookup (aupsert carts n []) n).getD [] = []
  rw [alookup_aupsert_self]
  rfl

theorem get_or_create_kept (carts : List (String × List CartItem))
    (c : Option String) (n : String)
    (hcond : c.getD "" ≠ "" ∧ (alookup carts (c.getD "")).isSome) :
    get_or_create_cart_id carts c n = (c.getD "", carts) := by
  unfold get_or_create_cart_id
  rw [if_pos hcond]

theorem checkout_failure_listings (st : MarketState) (c : Option String)
    (n : String) (b : CheckoutBody) (gen : Nat → String) (now : String)
    (h : (alookup (get_or_create_cart_id st.carts c n).2
          (get_or_create_cart_id st.carts c n).1).getD [] = ([] : List CartItem)
        ∨ b.email.getD "" = "" ∨ b.name.getD "" = "") :
    (checkout st c n b gen now).1.listings = st.listings := by
  unfold checkout
  dsimp only
  by_cases h1 : (alookup (get_or_create_cart_id st.carts c n).2
      (get_or_create_cart_id st.carts c n).1).getD ([] : List CartItem) = []
  · rw [if_pos h1]
  · rw [if_neg h1]
    rcases h with h | h
    · exact absurd h h1
    · rw [if_pos h]

theorem checkout_carts_mem (st : MarketState) (c : Option String) (n : String)
    (b : CheckoutBody) (gen : Nat → String) (now : String)
    (p : String × List CartItem)
    (hp : p ∈ (checkout st c n b gen now).1.carts) :
    p ∈ st.carts ∨ p.2 = [] := by
  unfold checkout at hp
  dsimp only at hp
  by_cases h1 : (alookup (get_or_create_cart_id st.carts c n).2
      (get_or_create_cart_id st.carts c n).1).getD ([] : List CartItem) = []
  · rw [if_pos h1] at hp
    exact get_or_create_mem st.carts c n p hp
  · rw [if_neg h1] at hp
    by_cases h2 : b.email.getD "" = "" ∨ b.name.getD "" = ""
    · rw [if_pos h2] at hp
      exact get_or_create_mem st.carts c n p hp
    · rw [if_neg h2] at hp
      rcases mem_aupsert _ _ _ p hp with h3 | h3
      · exact get_or_create_mem st.carts c n p h3
      · exact Or.inr (by rw [h3])

theorem add_to_cart_wf (st : MarketState) (c : Option String) (n : String)
    (b : AddBody) (hwf : carts_wf st) : carts_wf (add_to_cart st c n b).1 := by
  have hc2 : ∀ p ∈ (get_or_create_cart_id st.carts c n).2,
      (p.2.map CartItem.listing_id).Nodup := by
    intro p hp
    rcases get_or_create_mem st.carts c n p hp with h | h
    · exact hwf p h
    · rw [h]
      exact List.nodup_nil
  have hcart : (((alookup (get_or_create_cart_id st.carts c n).2
      (get_or_create_cart_id st.carts c n).1).getD []).map
        CartItem.listing_id).Nodup := by
    cases hl : alookup (get_or_create_cart_id st.carts c n).2
        (get_or_create_cart_id st.carts c n).1 with
    | none => exact List.nodup_nil
    | some items => exact hc2 _ (alookup_mem _ _ _ hl)
  intro p hp
  unfold add_to_cart at hp
  dsimp only at hp
  by_cases h1 : b.listing_id.getD "" = ""
  · rw [if_pos h1] at hp
    exact hc2 p hp
  · rw [if_neg h1] at hp
    cases hf : find_active_listing st.listings (b.listing_id.getD "") with
    | none =>
        rw [hf] at hp
        exact hc2 p hp
    | some listing =>
        rw [hf] at hp
        dsimp only at hp
        cases hfind : ((alookup (get_or_create_cart_id st.carts c n).2
            (get_or_create_cart_id st.carts c n).1).getD []).find?
            (fun i => i.listing_id == b.listing_id.getD "") with
        | some existing =>
            rw [hfind] at hp
            dsimp only at hp
            by_cases h2 : listing.quantity < existing.quantity + b.quantity.getD 1
            · rw [if_pos h2] at hp
              exact hc2 p hp
            · rw [if_neg h2] at hp
              rcases mem_aupsert _ _ _ p hp with h3 | h3
              · exact hc2 p h3
              · rw [h3]
                show ((update_first (fun i => i.listing_id == b.listing_id.getD "")
                    (fun i => { i with quantity := existing.quantity + b.quantity.getD 1 })
                    ((alookup (get_or_create_cart_id st.carts c n).2
                      (get_or_create_cart_id st.carts c n).1).getD [])).map
                  CartItem.listing_id).Nodup
                rw [update_first_map_eq
                  (fun i => i.listing_id == b.listing_id.getD "")
                  (fun i => ({ i with
                    quantity := existing.quantity + b.quantity.getD 1 } : CartItem))
                  CartItem.listing_id (fun x => rfl)]
                exact hcart
        | none =>
            rw [hfind] at hp
            dsimp only at hp
            by_cases h2 : listing.quantity < b.quantity.getD 1
            · rw [if_pos h2] at hp
              exact hc2 p hp
            · rw [if_neg h2] at hp
              rcases mem_aupsert _ _ _ p hp with h3 | h3
              · exact hc2 p h3
              · rw [h3]
                show ((((alookup (get_or_create_cart_id st.carts c n).2
                    (get_or_create_cart_id st.carts c n).1).getD [])
                    ++ [CartItem.mk (b.listing_id.getD "") (b.quantity.getD 1)]).map
                  CartItem.listing_id).Nodup
                rw [List.map_append, List.nodup_append]
                refine ⟨hcart, List.nodup_singleton _, ?_⟩
                intro a ha hb
                rcases List.mem_singleton.mp hb with rfl
                have hnone := List.find?_eq_none.mp hfind
                obtain ⟨x, hx, hxl⟩ := List.mem_map.mp ha
                exact hnone x hx (beq_iff_eq.mpr hxl)

theorem remove_from_cart_wf (st : MarketState) (c : Option String) (n : String)
    (b : RemoveBody) (hwf : carts_wf st) :
    carts_wf (remove_from_cart st c n b).1 := by
  have hc2 : ∀ p ∈ (get_or_create_cart_id st.carts c n).2,
      (p.2.map CartItem.listing_id).Nodup := by
    intro p hp
    rcases get_or_create_mem st.carts c n p hp with h | h
    · exact hwf p h
    · rw [h]
      exact List.nodup_nil
  intro p hp
  unfold remove_from_cart at hp
  dsimp only at hp
  cases hl : alookup (get_or_create_cart_id st.carts c n).2
      (get_or_create_cart_id st.carts c n).1 with
  | some items =>
      rw [hl] at hp
      dsimp only at hp
      rcases mem_aupsert _ _ _ p hp with h3 | h3
      · exact hc2 p h3
      · rw [h3]
        show (((items.filter
            (fun i => ¬ (b.listing_id == some i.listing_id))).map
          CartItem.listing_id)).Nodup
        have hsub : ((items.filter
            (fun i => ¬ (b.listing_id == some i.listing_id))).map
              CartItem.listing_id).Sublist (items.map CartItem.listing_id) :=
          List.Sublist.map _ (List.filter_sublist items)
        exact List.Nodup.sublist hsub (hc2 _ (alookup_mem _ _ _ hl))
  | none =>
      rw [hl] at hp
      exact hc2 p hp

theorem checkout_wf (st : MarketState) (c : Option String) (n : String)
    (b : CheckoutBody) (gen : Nat → String) (now : String) (hwf : carts_wf st) :
    carts_wf (checkout st c n b gen now).1 := by
  intro p hp
  rcases checkout_carts_mem st c n b gen now p hp with h | h
  · exact hwf p h
  · rw [h]
    exact List.nodup_nil

theorem sync_wf (st : MarketState) (sid : String) (m : Option String)
    (incoming : List IncomingListing) (scry : String → String → Option ScryData)
    (gen : Nat → String) (now : String) (hwf : carts_wf st) :
    carts_wf (sync_listings st sid m incoming scry gen now).1 := by
  intro p hp
  rw [sync_listings_carts] at hp
  exact hwf p hp

theorem sync_insert_nonneg (sid : String) (inc2 : IncomingListing)
    (base : List Listing) (n1 n2 : Nat) (l : Listing)
    (hbase : ∀ x ∈ base, 0 ≤ x.quantity)
    (hq : ∀ q : Int, inc2.quantity = some q → 0 ≤ q)
    (h : l ∈ (match base.find? (matches_incoming sid inc2) with
              | some _ => (update_first (matches_incoming sid inc2)
                  (fun x => dict_update x inc2) base, n1, n2 + 1)
              | none => (base ++ [to_listing inc2], n1 + 1, n2)).1) :
    0 ≤ l.quantity := by
  cases hf : base.find? (matches_incoming sid inc2) with
  | none =>
      rw [hf] at h
      have h2 : l ∈ base ++ [to_listing inc2] := h
      rcases List.mem_append.mp h2 with h3 | h3
      · exact hbase l h3
      · rcases List.mem_singleton.mp h3 with rfl
        show 0 ≤ inc2.quantity.getD 1
        cases hq2 : inc2.quantity with
        | none =>
            show (0 : Int) ≤ 1
            decide
        | some q => exact hq q hq2
  | some l0 =>
      rw [hf] at h
      have h2 : l ∈ update_first (matches_incoming sid inc2)
          (fun x => dict_update x inc2) base := h
      rcases mem_update_first _ _ _ _ h2 with h3 | ⟨y, hy, rfl⟩
      · exact hbase l h3
      · show 0 ≤ inc2.quantity.getD y.quantity
        cases hq2 : inc2.quantity with
        | none => exact hbase y hy
        | some q => exact hq q hq2

theorem sync_step_nonneg (sid now : String)
    (scry : String → String → Option ScryData) (gen : Nat → String)
    (acc : List Listing × Nat × Nat) (p : Nat × IncomingListing) (l : Listing)
    (hacc : ∀ x ∈ acc.1, 0 ≤ x.quantity)
    (hq : ∀ q : Int, p.2.quantity = some q → 0 ≤ q)
    (h : l ∈ (sync_step sid now scry gen acc p).1) : 0 ≤ l.quantity := by
  unfold sync_step at h
  refine sync_insert_nonneg sid _ acc.1 acc.2.1 acc.2.2 l hacc ?_ h
  intro q hq2
  apply hq
  rw [← hq2, (enrich_incoming_fields scry _).2.2.2.2]

theorem sync_fold_nonneg (sid now : String)
    (scry : String → String → Option ScryData) (gen : Nat → String)
    (ps : List (Nat × IncomingListing)) :
    ∀ (acc : List Listing × Nat × Nat),
      (∀ x ∈ acc.1, 0 ≤ x.quantity) →
      (∀ p ∈ ps, ∀ q : Int, p.2.quantity = some q → 0 ≤ q) →
      ∀ l ∈ (ps.foldl (sync_step sid now scry gen) acc).1, 0 ≤ l.quantity := by
  induction ps with
  | nil => exact fun acc hacc _ l hl => hacc l hl
  | cons p ps ih =>
      intro acc hacc hq l hl
      rw [List.foldl_cons] at hl
      refine ih (sync_step sid now scry gen acc p) ?_
        (fun pp hpp => hq pp (List.mem_cons_of_mem p hpp)) l hl
      intro x hx
      exact sync_step_nonneg sid now scry gen acc p x hacc
        (hq p (List.mem_cons_self p ps)) hx

theorem sync_nonneg (st : MarketState) (sid : String) (m : Option String)
    (incoming : List IncomingListing) (scry : String → String → Option ScryData)
    (gen : Nat → String) (now : String)
    (hln : listings_nonneg st)
    (hq : ∀ inc ∈ incoming, ∀ q : Int, inc.quantity = some q → 0 ≤ q) :
    listings_nonneg (sync_listings st sid m incoming scry gen now).1 := by
  intro l hl
  have hl2 : l ∈ (incoming.enum.foldl (sync_step sid now scry gen)
      ((if m.getD "merge" = "replace"
        then st.listings.filter (fun l => ¬ (l.seller_id == sid))
        else st.listings), 0, 0)).1 := hl
  refine sync_fold_nonneg sid now scry gen incoming.enum _ ?_ ?_ l hl2
  · intro x hx
    by_cases hm : m.getD "merge" = "replace"
    · rw [if_pos hm] at hx
      exact hln x (List.mem_filter.mp hx).1
    · rw [if_neg hm] at hx
      exact hln x hx
  · intro p hp q hq2
    exact hq p.2 (mem_of_mem_enum hp) q hq2

/-- Under the availability condition, with all quantities non-negative and
duplicate-free carts, checkout keeps every listing quantity non-negative. -/
theorem checkout_nonneg (st : MarketState) (c : Option String) (n : String)
    (b : CheckoutBody) (gen : Nat → String) (now : String)
    (hln : listings_nonneg st) (hwf : carts_wf st)
    (hsafe : checkout_safe st c n) :
    listings_nonneg (checkout st c n b gen now).1 := by
  by_cases hfail : (alookup (get_or_create_cart_id st.carts c n).2
      (get_or_create_cart_id st.carts c n).1).getD ([] : List CartItem) = []
      ∨ b.email.getD "" = "" ∨ b.name.getD "" = ""
  · intro l hl
    rw [checkout_failure_listings st c n b gen now hfail] at hl
    exact hln l hl
  · push_neg at hfail
    obtain ⟨hIne, hemail, hname⟩ := hfail
    have hcond : c.getD "" ≠ "" ∧ (alookup st.carts (c.getD "")).isSome := by
      by_contra hnc
      exact hIne (resolved_items_fresh st.carts c n hnc)
    obtain ⟨items, halookup⟩ := Option.isSome_iff_exists.mp hcond.2
    have hI : (alookup (get_or_create_cart_id st.carts c n).2
        (get_or_create_cart_id st.carts c n).1).getD ([] : List CartItem)
        = items := by
      rw [get_or_create_kept st.carts c n hcond]
      show (alookup st.carts (c.getD "")).getD [] = items
      rw [halookup]
      rfl
    have hne : items ≠ [] := by
      rw [hI] at hIne
      exact hIne
    have hnditems : (items.map CartItem.listing_id).Nodup :=
      hwf (c.getD "", items) (alookup_mem st.carts (c.getD "") items halookup)
    have hsafe2 : ∀ it ∈ items, ∀ l2 ∈ st.listings,
        l2.id = it.listing_id → it.quantity ≤ l2.quantity := by
      have hsafe3 : ∀ it ∈ (alookup (get_or_create_cart_id st.carts c n).2
          (get_or_create_cart_id st.carts c n).1).getD ([] : List CartItem),
          ∀ l2 ∈ st.listings, l2.id = it.listing_id →
            it.quantity ≤ l2.quantity := hsafe
      rw [hI] at hsafe3
      exact hsafe3
    obtain ⟨hlist, -, -⟩ := checkout_success st c n b gen now items hcond.1
      halookup hne hemail hname
    intro l hl
    rw [hlist, decrement_eq_map _ st.listings] at hl
    obtain ⟨l0, hl0, hfold⟩ := List.mem_map.mp hl
    rw [← hfold]
    show 0 ≤ ((flatten_groups (group_items st.listings items)).foldl
        (fun x it => dec_one it x) l0).quantity
    have hle : (flatten_groups (group_items st.listings items)).countP
        (fun o => o.listing_id == l0.id) ≤ 1 := by
      rw [flat_countP, countP_filterMap]
      refine le_trans (List.countP_mono_left ?_)
        (nodup_countP_le_one CartItem.listing_id l0.id items hnditems)
      intro it hit htrue
      cases hs : snap_of st.listings it with
      | none =>
          rw [hs] at htrue
          exact absurd (show (false : Bool) = true from htrue) (by decide)
      | some o =>
          rw [hs] at htrue
          have ho : (o.listing_id == l0.id) = true := htrue
          rw [beq_iff_eq] at ho ⊢
          rw [← snap_listing_id st.listings it o hs]
          exact ho
    rcases Nat.le_one_iff_eq_zero_or_eq_one.mp hle with h0 | h1
    · have hnm : ∀ o ∈ flatten_groups (group_items st.listings items),
          o.listing_id ≠ l0.id := by
        intro o ho heq
        exact (List.countP_eq_zero.mp h0 o ho) (beq_iff_eq.mpr heq)
      rw [dec_fold_of_no_match _ l0 hnm]
      exact hln l0 hl0
    · obtain ⟨A, x, B, hsplit, hx, hA, hB⟩ :=
        countP_one_split (fun o => o.listing_id == l0.id)
          (flatten_groups (group_items st.listings items)) h1
      have hxid : x.listing_id = l0.id := beq_iff_eq.mp hx
      have hxmem : x ∈ flatten_groups (group_items st.listings items) := by
        rw [hsplit]
        exact List.mem_append.mpr (Or.inr (List.mem_cons_self x B))
      have hperm := group_fold_flatten st.listings items []
      rw [show flatten_groups ([] : List (String × List OrderItem)) = []
        from rfl, List.nil_append] at hperm
      have hxsnap : x ∈ items.filterMap (snap_of st.listings) :=
        hperm.mem_iff.mp hxmem
      obtain ⟨item, hitem, hsnap⟩ := List.mem_filterMap.mp hxsnap
      have hxlid : x.listing_id = item.listing_id :=
        snap_listing_id st.listings item x hsnap
      have hxq : x.quantity = item.quantity := by
        unfold snap_of at hsnap
        cases hf : find_listing st.listings item.listing_id with
        | none =>
            rw [hf] at hsnap
            exact Option.noConfusion hsnap
        | some l2 =>
            rw [hf] at hsnap
            have h2 : some (snapshot_item l2 item.quantity) = some x := hsnap
            cases h2
            rfl
      rw [hsplit, dec_fold_split A B x l0 hxid
        (fun a ha => beq_eq_false_iff_ne.mp (hA a ha))
        (fun b2 hb2 => beq_eq_false_iff_ne.mp (hB b2 hb2))]
      show 0 ≤ l0.quantity - x.quantity
      rw [hxq]
      have hq := hsafe2 item hitem l0 hl0 (by rw [← hxid]; exact hxlid)
      omega

/-- Guarded reachability preserves non-negative quantities and
duplicate-free carts. -/
theorem GReach_inv {st : MarketState} (h : GReach st) :
    listings_nonneg st ∧ carts_wf st := by
  induction h with
  | init st h1 h2 => exact ⟨h1, h2⟩
  | add c n b hst ih =>
      refine ⟨?_, add_to_cart_wf _ c n b ih.2⟩
      intro l hl
      have hl2 : l ∈ (add_to_cart _ c n b).1.listings := hl
      rw [add_to_cart_listings] at hl2
      exact ih.1 l hl2
  | remove c n b hst ih =>
      refine ⟨?_, remove_from_cart_wf _ c n b ih.2⟩
      intro l hl
      have hl2 : l ∈ (remove_from_cart _ c n b).1.listings := hl
      rw [remove_from_cart_listings] at hl2
      exact ih.1 l hl2
  | sync sid m incoming scry gen now hst hq ih =>
      exact ⟨sync_nonneg _ sid m incoming scry gen now ih.1 hq,
        sync_wf _ sid m incoming scry gen now ih.2⟩
  | checkout c n b gen now hst hsafe ih =>
      exact ⟨checkout_nonneg _ c n b gen now ih.1 ih.2 hsafe,
        checkout_wf _ c n b gen now ih.2⟩

/-- C2 (amended): listing quantities stay non-negative across request
sequences provided every sync request carries non-negative incoming
quantities and every checkout runs only under the availability condition
(each item of the resolved cart demands no more than the current quantity of
every listing bearing its id), starting from a state with non-negative
quantities and duplicate-free carts; GReach captures exactly these guarded
request sequences.  Without the checkout guard the invariant fails: the
server never re-checks availability at checkout, so two carts holding the
same last copy drive the quantity to -1 (see the counterexample). -/
theorem claim_C2 {st : MarketState} (h : GReach st) : listings_nonneg st :=
  (GReach_inv h).1

theorem claim_C2_witness :
    listings_nonneg (apply_op
      ⟨[("S1", ⟨"Shop", "e@x", "loc", "k1", "t0", "active"⟩)],
       [⟨"L1", "S1", "Alpha", "abc", "NM", 2, 1, "Active", "r", "img", ""⟩],
       [], []⟩
      (Op.add none "A" ⟨some "L1", some 1⟩)) :=
  claim_C2 (GReach.add none "A" ⟨some "L1", some 1⟩
    (GReach.init _ (by unfold listings_nonneg; decide)
      (by unfold carts_wf; decide)))

end Nexus
